import Mathlib

/-!
Verification development for the RETRIEVAL-AGENT natural-language-to-SQL
gateway.  The Python sources under `src/` are shallowly embedded: pure
helpers become Lean functions over `String` / `List`, regular-expression
rewrites over SQL text are modelled either character-exactly (scanners over
`List Char`) or at token granularity where noted, and results of external
libraries (the `sqlglot` parser, the LLM client, `networkx`) enter as
explicit inputs describing what those libraries returned.
-/

namespace RetrievalAgent

/-- Word character for regex word boundaries: the ASCII fragment
`[A-Za-z0-9_]` of `\w` that is relevant to SQL text and questions. -/
def isWordChar (c : Char) : Bool :=
  c.isAlphanum || c = '_'

/-- `str.lower()` (character-wise, all text here is ASCII). -/
def lower (s : String) : String :=
  String.mk (s.toList.map Char.toLower)

/-- `str.upper()`. -/
def upper (s : String) : String :=
  String.mk (s.toList.map Char.toUpper)

/-- `str.strip()`: trim whitespace from both ends. -/
def pyStrip (s : String) : String :=
  String.mk (((s.toList.dropWhile Char.isWhitespace).reverse.dropWhile
    Char.isWhitespace).reverse)

/-- Exact (character-equal) match of the first list at the head of the
second, returning the rest. -/
def matchExact : List Char → List Char → Option (List Char)
  | [], rest => some rest
  | _ :: _, [] => none
  | n :: ns, c :: cs => if n = c then matchExact ns cs else none

/-- `str.startswith(p)`: `p` matches at the head of `s`. -/
def pyStartsWith (s p : String) : Bool :=
  (matchExact p.toList s.toList).isSome

/-- The maximal runs of characters satisfying `keep` (used to model both
whitespace splitting and `\b\w+\b` extraction). -/
def charRuns (keep : Char → Bool) : List Char → List Char → List String
  | [], acc => if acc.isEmpty then [] else [String.mk acc.reverse]
  | c :: rest, acc =>
    if keep c then charRuns keep rest (c :: acc)
    else if acc.isEmpty then charRuns keep rest []
    else String.mk acc.reverse :: charRuns keep rest []

/-- Deduplicate keeping first occurrences (models a Python `set`; only
membership and intersection sizes are used downstream). -/
def dedupFirst : List String → List String → List String
  | [], _ => []
  | x :: rest, seen =>
    if seen.contains x then dedupFirst rest seen
    else x :: dedupFirst rest (x :: seen)

/-- The numeric value of a digit run (`int(group)`). -/
def digitsVal (ds : List Char) : Nat :=
  ds.foldl (fun n c => n * 10 + (c.toNat - 48)) 0

/-- The suffix after the last dot: `s.split('.')[-1]`. -/
def lastDotComponent (s : String) : String :=
  String.mk ((s.toList.reverse.takeWhile (fun c => c ≠ '.')).reverse)

/-- The single-quote character (written via its code point so that SQL
string literals can be spelled out in examples). -/
def sq : Char := Char.ofNat 39

/-- The double-quote character. -/
def dq : Char := Char.ofNat 34

/-- Case-insensitive match of `needle` against a prefix of `text`;
returns the rest of `text` after the match. -/
def matchCI : List Char → List Char → Option (List Char)
  | [], rest => some rest
  | _ :: _, [] => none
  | n :: ns, c :: cs => if n.toLower = c.toLower then matchCI ns cs else none

/-- One step of `re.search(rf"\b{kw}\b", text, re.IGNORECASE)`:
`prevIsWord` records whether the character immediately before the current
position is a word character. -/
def wbSearch (needle : List Char) : Bool → List Char → Bool
  | _, [] => false
  | prevIsWord, c :: rest =>
    (!prevIsWord &&
      (match matchCI needle (c :: rest) with
       | some [] => true
       | some (d :: _) => !isWordChar d
       | none => false))
    || wbSearch needle (isWordChar c) rest

/-- `re.search(rf"\b{re.escape(kw)}\b", text, flags=re.IGNORECASE)` is not
`None`: the keyword occurs in `text` delimited by word boundaries,
case-insensitively.  (All blocked keywords consist of word characters and,
for the question-side phrases, single spaces.) -/
def wordBoundaryContains (text kw : String) : Bool :=
  wbSearch kw.toList false text.toList

/-! ### `src/validation/blocked_patterns.py` -/

/-- `BLOCKED_KEYWORDS` from `src/validation/blocked_patterns.py`. -/
def BLOCKED_KEYWORDS : List String :=
  ["INSERT", "UPDATE", "DELETE", "TRUNCATE",
   "DROP", "CREATE", "ALTER", "RENAME",
   "GRANT", "REVOKE",
   "BEGIN", "COMMIT", "ROLLBACK", "SAVEPOINT",
   "VACUUM", "ANALYZE", "CLUSTER", "REINDEX",
   "DO", "CALL",
   "COPY", "LISTEN", "NOTIFY", "UNLISTEN"]

/-- Fuelled scanner for `re.sub(r"/\*.*?\*/", " ", sql, flags=re.DOTALL)`:
each non-greedy block comment becomes one space; an unterminated `/*` is
not a match and is left in place (as is everything after it, where no
further match can start either, since no `*/` remains). -/
def stripBlockC (fuel : Nat) (cs : List Char) : List Char :=
  match fuel, cs with
  | 0, rest => rest
  | _, [] => []
  | fuel + 1, c1 :: rest =>
    match c1, rest with
    | '/', '*' :: rest2 =>
      match findBlockClose (fuel + 1) rest2 with
      | some rem => ' ' :: stripBlockC fuel rem
      | none => c1 :: rest
    | _, _ => c1 :: stripBlockC fuel rest
where
  /-- Skip to just past the next `*/`, if any. -/
  findBlockClose : Nat → List Char → Option (List Char)
    | 0, _ => none
    | _, [] => none
    | fuel + 1, c :: rest =>
      match c, rest with
      | '*', '/' :: rest2 => some rest2
      | _, _ => findBlockClose fuel rest

/-- Fuelled scanner for `re.sub(r"--[^\n]*", " ", sql)`: a `--` comment is
replaced by one space up to (excluding) the end of line. -/
def stripLineC (fuel : Nat) (cs : List Char) : List Char :=
  match fuel, cs with
  | 0, rest => rest
  | _, [] => []
  | fuel + 1, c1 :: rest =>
    match c1, rest with
    | '-', '-' :: rest2 =>
      ' ' :: stripLineC fuel (rest2.dropWhile (fun c => c ≠ '\n'))
    | _, _ => c1 :: stripLineC fuel rest

/-- Fuelled scanner for `re.sub(r"'(?:''|[^'])*'", " ", sql)`: a
single-quoted SQL literal (with doubled-quote escapes) becomes one space;
an unterminated quote is not a match and stays. -/
def stripSingleQ (fuel : Nat) (cs : List Char) : List Char :=
  match fuel, cs with
  | 0, rest => rest
  | _, [] => []
  | fuel + 1, c1 :: rest =>
    if c1 = sq then
      match findQuoteClose (fuel + 1) rest with
      | some rem => ' ' :: stripSingleQ fuel rem
      | none => c1 :: stripSingleQ fuel rest
    else c1 :: stripSingleQ fuel rest
where
  /-- Consume `(?:''|[^'])*'`: the body of a quoted literal up to and
  including its closing quote. -/
  findQuoteClose : Nat → List Char → Option (List Char)
    | 0, _ => none
    | _, [] => none
    | fuel + 1, c :: rest =>
      if c = sq then
        match rest with
        | c2 :: rest2 => if c2 = sq then findQuoteClose fuel rest2 else some rest
        | [] => some []
      else findQuoteClose fuel rest

/-- Fuelled scanner for `re.sub(r'"(?:[^"]|"")*"', " ", sql)`: a
double-quoted identifier becomes one space. -/
def stripDoubleQ (fuel : Nat) (cs : List Char) : List Char :=
  match fuel, cs with
  | 0, rest => rest
  | _, [] => []
  | fuel + 1, c1 :: rest =>
    if c1 = dq then
      match findDq (fuel + 1) rest with
      | some rem => ' ' :: stripDoubleQ fuel rem
      | none => c1 :: stripDoubleQ fuel rest
    else c1 :: stripDoubleQ fuel rest
where
  /-- Consume `(?:[^"]|"")*"`. -/
  findDq : Nat → List Char → Option (List Char)
    | 0, _ => none
    | _, [] => none
    | fuel + 1, c :: rest =>
      if c = dq then
        match rest with
        | c2 :: rest2 => if c2 = dq then findDq fuel rest2 else some rest
        | [] => some []
      else findDq fuel rest

/-- `re.sub(r"\s+", " ", sql).strip()`: collapse whitespace runs to single
spaces and trim the ends. -/
def normalizeWs (s : String) : String :=
  String.intercalate " " (charRuns (fun c => !c.isWhitespace) s.toList [])

/-- `_strip_sql_literals_and_comments` from
`src/validation/blocked_patterns.py`: remove block comments, then line
comments, then single-quoted literals, then double-quoted identifiers, and
normalize whitespace. -/
def strip_sql_literals_and_comments (sql : String) : String :=
  if sql = "" then ""
  else
    let l1 := stripBlockC (sql.length + 1) sql.toList
    let l2 := stripLineC (l1.length + 1) l1
    let l3 := stripSingleQ (l2.length + 1) l2
    let l4 := stripDoubleQ (l3.length + 1) l3
    normalizeWs (String.mk l4)

/-- `check_blocked_keywords` from `src/validation/blocked_patterns.py`:
filter the blocked keywords down to those that occur at word boundaries in
the stripped SQL text. -/
def check_blocked_keywords (sql : String) : List String :=
  let cleaned := strip_sql_literals_and_comments sql
  if cleaned = "" then []
  else BLOCKED_KEYWORDS.filter (fun kw => wordBoundaryContains cleaned kw)

/-! ### `src/validation/ast_parser.py`: AST model and `is_select_only` -/

/-- Kinds of `sqlglot` expression nodes that `SQLParser.is_select_only`
distinguishes.  `SetOp` stands for `exp.Set`, and `OtherKind` for every
other sqlglot node class (tables, columns, joins, literals, ...). -/
inductive ExpKind where
  | Select | Union | Intersect | Except | Subquery | With
  | Insert | Update | Delete | Merge
  | Create | Drop | Alter | Truncate | Rename
  | Grant | Revoke
  | Command | SetOp | Use | Kill
  | OtherKind
deriving DecidableEq, Repr

/-- A `sqlglot` AST, modelled as a node kind with its argument subtrees.
For a `With` node the first child models `ast.this`, the final query of
the WITH statement. -/
inductive Ast where
  | node (kind : ExpKind) (children : List Ast)
deriving Repr

/-- The kind of the root node. -/
def Ast.kind : Ast → ExpKind
  | .node k _ => k

/-- The child subtrees of the root node. -/
def Ast.children : Ast → List Ast
  | .node _ cs => cs

mutual
/-- `ast.find(forbidden_type) is not None`: the tree (the root included)
has a node of kind `t`. -/
def containsKind (t : ExpKind) : Ast → Bool
  | .node k cs => (k == t) || containsKindL t cs

/-- `containsKind` over a list of subtrees. -/
def containsKindL (t : ExpKind) : List Ast → Bool
  | [] => false
  | a :: rest => containsKind t a || containsKindL t rest
end

/-- `forbidden_class_names` from `SQLParser.is_select_only` (all of them
exist in the modelled sqlglot, so the `hasattr` filter keeps every one). -/
def forbidden_class_names : List ExpKind :=
  [.Insert, .Update, .Delete, .Merge,
   .Create, .Drop, .Alter, .Truncate, .Rename,
   .Grant, .Revoke,
   .Command, .SetOp, .Use, .Kill]

/-- `allowed_root_types` from `SQLParser.is_select_only`, with the
optional `Subquery` and `With` kinds present. -/
def allowed_root_kinds : List ExpKind :=
  [.Select, .Union, .Intersect, .Except, .Subquery, .With]

/-- The kinds accepted for the final query of a WITH statement. -/
def select_like_kinds : List ExpKind :=
  [.Select, .Union, .Intersect, .Except]

/-- `SQLParser.is_select_only`: tree-wide forbidden-node scan, then root
acceptance, with the WITH-final-query special case. -/
def is_select_only : Option Ast → Bool
  | none => false
  | some ast =>
    if forbidden_class_names.any (fun t => containsKind t ast) then false
    else if allowed_root_kinds.contains ast.kind then
      if ast.kind == ExpKind.With then
        match ast.children.head? with
        | some fq => select_like_kinds.contains fq.kind
        | none => true
      else true
    else false

/-! ### `SQLParser.inject_limit` (regex `\bLIMIT\s+\d+`, character-exact) -/

/-- Match `LIMIT\s+\d+` (case-insensitive) at the head of `cs`; on success
return the rest after the (maximal) digit run. -/
def matchLimitNum (cs : List Char) : Option (List Char) :=
  match matchCI "limit".toList cs with
  | none => none
  | some rest =>
    let wsN := (rest.takeWhile (fun c => c.isWhitespace)).length
    if wsN = 0 then none
    else
      let rest2 := rest.drop wsN
      let dN := (rest2.takeWhile (fun c => c.isDigit)).length
      if dN = 0 then none else some (rest2.drop dN)

/-- `re.search(r'\bLIMIT\s+\d+', sql, re.IGNORECASE)` is not `None`. -/
def searchLimitNum : Bool → List Char → Bool
  | _, [] => false
  | prevIsWord, c :: rest =>
    (!prevIsWord && (matchLimitNum (c :: rest)).isSome)
    || searchLimitNum (isWordChar c) rest

/-- Fuelled scanner for `re.sub(r'\bLIMIT\s+\d+', f'LIMIT {limit}', sql,
flags=re.IGNORECASE)`: every word-boundary-preceded match is replaced;
scanning resumes after each match (whose last character is a digit, hence
a word character). -/
def injectScan (limit : Nat) : Nat → Bool → List Char → List Char
  | 0, _, rest => rest
  | _, _, [] => []
  | fuel + 1, prevIsWord, c :: rest =>
    if !prevIsWord then
      match matchLimitNum (c :: rest) with
      | some rem => ("LIMIT " ++ toString limit).toList ++ injectScan limit fuel true rem
      | none => c :: injectScan limit fuel (isWordChar c) rest
    else c :: injectScan limit fuel (isWordChar c) rest

/-- `str.rstrip(';')`: drop trailing semicolon characters. -/
def rstripSemis (s : String) : String :=
  String.mk ((s.toList.reverse.dropWhile (fun c => c = ';')).reverse)

/-- `SQLParser.inject_limit` on the rendered SQL text: replace an existing
`LIMIT <n>` (all regex occurrences), else append ` LIMIT <n>` after
stripping trailing semicolons and outer whitespace. -/
def inject_limit (sql : String) (limit : Nat) : String :=
  if sql = "" then ""
  else if searchLimitNum false sql.toList then
    String.mk (injectScan limit (sql.length + 1) false sql.toList)
  else pyStrip (rstripSemis sql) ++ " LIMIT " ++ toString limit

/-! ### `src/core/sql_validator.py`: `SQLValidator.validate_sql` -/

/-- Result record of `validate_sql` (the dataclass `ValidationResult`). -/
structure ValidationResult where
  is_valid : Bool
  sql : String
  errors : List String
  warnings : List String
deriving Repr

/-- Inputs of `SQLValidator.validate_sql` that come from external
libraries or from checks whose internals no claim needs: `parsed` is the
`sqlglot.parse_one` result, `stmt_count` the number of statements found by
`sqlglot.parse` (`is_single_statement` tests `= 1`),
`non_select_enhanced` the result of `check_non_select_statement` (a second
sqlglot-based check on the text), `ast_sql` the sqlglot rendering of the
AST handed to `inject_limit`, `has_limit` / `limit_value` the AST probes
`SQLParser.has_limit` / `get_limit_value`, and `other_errors` /
`other_warnings` the contributions of steps 5-10 (tables, schema
qualification, functions, join types, join path, join-ON, join depth),
which only ever append to the two lists. -/
structure ValidateInput where
  sql : String
  parsed : Option Ast
  stmt_count : Nat
  non_select_enhanced : Bool
  other_errors : List String
  other_warnings : List String
  ast_sql : String
  has_limit : Bool
  limit_value : Option Nat

/-- The LIMIT-enforcement step of `validate_sql` (its lines 231-247):
inject `default_limit` when the AST has no LIMIT; cap to `max_limit` when
the parsed LIMIT value is truthy and exceeds it; otherwise keep the input
text unchanged.  Returns the possibly rewritten SQL and the LIMIT
warnings. -/
def enforce_limit (sql ast_sql : String) (has_limit : Bool)
    (limit_value : Option Nat) (default_limit max_limit : Nat) :
    String × List String :=
  if !has_limit then
    (inject_limit ast_sql default_limit,
     ["No LIMIT specified. Auto-injected LIMIT " ++ toString default_limit])
  else
    match limit_value with
    | some v =>
      if v > max_limit then
        (inject_limit ast_sql max_limit,
         ["LIMIT " ++ toString v ++ " exceeds maximum " ++ toString max_limit
            ++ ". Capped to " ++ toString max_limit])
      else (sql, [])
    | none => (sql, [])

/-- `SQLValidator.validate_sql`: the error-accumulation pipeline.  Steps
2-4 (single statement, SELECT-only, enhanced non-SELECT, blocked
keywords) are embedded; steps 5-10 contribute `other_errors` /
`other_warnings`; step 12 is `enforce_limit`.  `is_valid` holds exactly
when the error list is empty. -/
def validate_sql (inp : ValidateInput) (default_limit max_limit : Nat) :
    ValidationResult :=
  if pyStrip inp.sql = "" then
    { is_valid := false, sql := inp.sql,
      errors := ["Empty or invalid SQL generated."], warnings := [] }
  else
    match inp.parsed with
    | none =>
      { is_valid := false, sql := inp.sql,
        errors := ["SQL parsing failed. Check syntax."], warnings := [] }
    | some ast =>
      let e2 := if inp.stmt_count = 1 then []
        else ["Only single SQL statements are allowed. No multi-statement or stacked queries."]
      let e3 := if is_select_only (some ast) then []
        else ["Only SELECT queries are allowed. No INSERT/UPDATE/DELETE/DDL operations."]
      let e3b := if inp.non_select_enhanced then
        ["Non-SELECT statement detected. Only SELECT queries are allowed."] else []
      let bk := check_blocked_keywords inp.sql
      let e4 := if bk.isEmpty then []
        else ["Blocked keywords found: " ++ String.intercalate ", " bk]
      let errors := e2 ++ e3 ++ e3b ++ e4 ++ inp.other_errors
      let enforced := enforce_limit inp.sql inp.ast_sql inp.has_limit
        inp.limit_value default_limit max_limit
      { is_valid := errors.isEmpty, sql := enforced.1,
        errors := errors,
        warnings := inp.other_warnings ++ enforced.2 }

/-! ### `src/validation/join_validator.py`: `JoinValidator.check_join_depth` -/

/-- The `query_policies` fields read by `check_join_depth`, with the
`.get` defaults from the source. -/
structure DepthPolicies where
  max_join_depth : Nat := 4
  hard_cap_join_depth : Nat := 6
  deep_join_threshold : Nat := 5
  require_where_for_deep_joins : Bool := true
deriving Repr

/-- Result of `check_join_depth` (`is_valid`, `errors`, `warnings`). -/
structure DepthCheckResult where
  is_valid : Bool
  errors : List String
  warnings : List String
deriving DecidableEq, Repr

/-- `JoinValidator.check_join_depth`: hard-cap rejection, soft-max
warning (strictly above the maximum only), and the WHERE requirement at
or above the deep-join threshold. -/
def check_join_depth (p : DepthPolicies) (join_depth : Nat)
    (has_where : Bool) : DepthCheckResult :=
  if join_depth > p.hard_cap_join_depth then
    { is_valid := false,
      errors := ["Join depth " ++ toString join_depth ++ " exceeds hard cap of "
        ++ toString p.hard_cap_join_depth ++ ". This query is too complex."],
      warnings := [] }
  else
    let warnings := if join_depth > p.max_join_depth then
      ["Join depth " ++ toString join_depth ++ " exceeds recommended maximum of "
        ++ toString p.max_join_depth ++ ". Query may be slow."] else []
    if join_depth ≥ p.deep_join_threshold && p.require_where_for_deep_joins
        && !has_where then
      { is_valid := false,
        errors := ["Join depth " ++ toString join_depth
          ++ " requires WHERE clause for scoping. Add a filter to limit the result set."],
        warnings := warnings }
    else
      { is_valid := true, errors := [], warnings := warnings }

/-! ### `src/validation/join_validator.py`: `validate_join_on_clauses` -/

/-- A foreign-key edge record as serialized in `compiled_rules.fk_edges`
(`RulesCompiler.compile_rules`, and the `FKEdge` dataclass of
`src/core/join_graph_builder.py`). -/
structure FKEdge where
  from_table : String
  from_column : String
  to_table : String
  to_column : String
  constraint_name : String
deriving DecidableEq, Repr

/-- The `fk_lookup` set built in `validate_join_on_clauses` (lines
268-271): both orientations of every edge. -/
def fk_lookup (fk_edges : List FKEdge) :
    List (String × String × String × String) :=
  fk_edges.flatMap (fun e =>
    [(e.from_table, e.from_column, e.to_table, e.to_column),
     (e.to_table, e.to_column, e.from_table, e.from_column)])

/-- An operand of a JOIN ON predicate as classified by
`JoinValidator._extract_table_column`: a sqlglot Column (whose falsy /
missing table qualifier is modelled as `none`), a Dot expression, or any
other node kind. -/
inductive OnOperand where
  | column (table : Option String) (name : String)
  | dot (table : String) (name : String)
  | otherOperand
deriving DecidableEq, Repr

/-- `JoinValidator._extract_table_column`. -/
def extract_table_column : OnOperand → Option String × Option String
  | .column t n => (t, some n)
  | .dot t n => (some t, some n)
  | .otherOperand => (none, none)

/-- A JOIN ON condition as dispatched by `validate_join_on_clauses`: a
single equality (`exp.EQ`), an AND conjunction carrying its `exp.EQ`
descendants in `find_all` order, or any other expression shape. -/
inductive OnCond where
  | eqCond (l r : OnOperand)
  | andCond (eqs : List (OnOperand × OnOperand))
  | otherCond
deriving DecidableEq, Repr

/-- A sqlglot table node as consumed by the alias-map construction:
`name`, the optional schema qualifier `db`, and the table alias when one
is set (`_alias_str` falls back to the name). -/
structure TableRef where
  name : String
  db : Option String
  alias0 : Option String
deriving DecidableEq, Repr

/-- `JoinValidator._alias_str`. -/
def alias_str (t : TableRef) : String :=
  t.alias0.getD t.name

/-- A JOIN clause: the table nodes found under the join node and its `on`
argument when present. -/
structure JoinClause where
  tables : List TableRef
  on_cond : Option OnCond
deriving DecidableEq, Repr

/-- The re-parse of the SQL performed by `validate_join_on_clauses`:
FROM-clause table nodes, JOIN clauses, and the lower-cased CTE names
extracted from the tree. -/
structure ParsedStmt where
  from_tables : List TableRef
  joins : List JoinClause
  cte_names : List String
deriving Repr

/-- `JoinValidator._default_schema`: the first allowed schema, or
`"core"`. -/
def default_schema (allowed_schemas : List String) : String :=
  allowed_schemas.headD "core"

/-- The qualified name assigned to a table node in the alias map: a CTE
keeps its bare name, otherwise `db.name` or `<default schema>.name`. -/
def resolve_table_name (cte_names : List String) (schema : String)
    (t : TableRef) : String :=
  if t.name ≠ "" && cte_names.contains (lower t.name) then t.name
  else
    match t.db with
    | some d => d ++ "." ++ t.name
    | none => schema ++ "." ++ t.name

/-- The alias map of `validate_join_on_clauses`: FROM-clause table nodes
first, then JOIN table nodes, each assignment `alias ↦ full name`; a later
assignment to the same alias overrides an earlier one (dict semantics). -/
def build_alias_map (stmt : ParsedStmt) (schema : String) :
    List (String × String) :=
  (stmt.from_tables ++ stmt.joins.flatMap (fun j => j.tables)).map
    (fun t => (alias_str t, resolve_table_name stmt.cte_names schema t))

/-- `dict.get` over the assignment list: the latest assignment wins. -/
def dictGet (m : List (String × String)) (k : String) : Option String :=
  m.reverse.lookup k

/-- `resolved.split('.')[-1].lower()`. -/
def base_name_lower (s : String) : String :=
  lower (lastDotComponent s)

/-- A fully qualified equality predicate `lt.lc = rt.rc`. -/
structure QualEq where
  lt : String
  lc : String
  rt : String
  rc : String
deriving DecidableEq, Repr

/-- The fully qualified equalities among a list of EQ predicates
(predicates failing the `all([...])` truthiness check are skipped). -/
def qualified_eqs (eqs : List (OnOperand × OnOperand)) : List QualEq :=
  eqs.filterMap (fun pr =>
    match extract_table_column pr.1, extract_table_column pr.2 with
    | (some lt, some lc), (some rt, some rc) => some ⟨lt, lc, rt, rc⟩
    | _, _ => none)

/-- Resolve both sides of a qualified equality through the alias map
(`alias_map.get(x, x)`). -/
def resolveQ (alias_map : List (String × String)) (q : QualEq) : QualEq :=
  ⟨(dictGet alias_map q.lt).getD q.lt, q.lc,
   (dictGet alias_map q.rt).getD q.rt, q.rc⟩

/-- Either resolved side of the equality is a CTE. -/
def qIsCte (cte_names : List String) (q : QualEq) : Bool :=
  cte_names.contains (base_name_lower q.lt)
    || cte_names.contains (base_name_lower q.rt)

/-- The equality matches the FK lookup in either orientation
(`join_tuple_1` / `join_tuple_2`). -/
def qMatches (lookup : List (String × String × String × String))
    (q : QualEq) : Bool :=
  lookup.contains (q.lt, q.lc, q.rt, q.rc)
    || lookup.contains (q.rt, q.rc, q.lt, q.lc)

/-- The errors contributed by one JOIN clause in
`validate_join_on_clauses`: missing ON, the EQ case (unparseable /
CTE-exempt / FK-checked), the AND case (any qualified non-CTE predicate
matching suffices), and the unsupported-shape case. -/
def join_on_errors (alias_map : List (String × String))
    (cte_names : List String)
    (lookup : List (String × String × String × String))
    (join : JoinClause) : List String :=
  match join.on_cond with
  | none =>
    ["JOIN found without ON clause. All joins must use explicit FK relationships."]
  | some (.eqCond l r) =>
    match extract_table_column l, extract_table_column r with
    | (some lt, some lc), (some rt, some rc) =>
      let q := resolveQ alias_map ⟨lt, lc, rt, rc⟩
      if qIsCte cte_names q then []
      else if qMatches lookup q then []
      else ["JOIN between resolved tables does not follow an FK relationship. Only FK-based joins are allowed."]
    | _, _ =>
      ["Unparseable JOIN ON condition. Use explicit table_alias.column = table_alias.column."]
  | some (.andCond eqs) =>
    let qs := (qualified_eqs eqs).map (resolveQ alias_map)
    let parsed_any := !qs.isEmpty
    let any_cte := qs.any (qIsCte cte_names)
    let found := qs.any (fun q => !qIsCte cte_names q && qMatches lookup q)
    if !parsed_any && !any_cte then
      ["Unparseable complex JOIN ON condition. Only FK-based joins are allowed."]
    else if !found && !any_cte then
      ["Complex JOIN condition with AND found, but no FK relationship matches any predicate. Only FK-based joins are allowed."]
    else []
  | some .otherCond =>
    ["Unsupported JOIN ON condition format. Use explicit FK join predicates."]

/-- `JoinValidator.validate_join_on_clauses`, the no-exception body:
build the alias map and FK lookup, accumulate the per-join errors, and
return `(no errors, errors)`.  (With no joins the list is empty and the
result is `(true, [])`, as in the source.) -/
def validate_join_on_clauses (stmt : ParsedStmt) (fk_edges : List FKEdge)
    (allowed_schemas : List String) : Bool × List String :=
  let schema := default_schema allowed_schemas
  let am := build_alias_map stmt schema
  let lookup := fk_lookup fk_edges
  let errors := stmt.joins.flatMap (join_on_errors am stmt.cte_names lookup)
  (errors.isEmpty, errors)

/-- The `try/except` wrapper around the body of
`validate_join_on_clauses` (source lines 206 and 357-361): the `attempt`
argument is the outcome of running the body — `Except.error` models any
internal exception (sqlglot re-parse failure, CTE extraction failure,
alias-map failure, ...), in which case the function logs and returns
`(True, [])`. -/
def validate_join_on_clauses_caught
    (attempt : Except String (Bool × List String)) : Bool × List String :=
  match attempt with
  | .error _ => (true, [])
  | .ok r => r

/-! ### `src/core/join_graph_builder.py` and `src/core/rules_compiler.py`:
FK edges of the Compiled Rules artifact -/

/-- A declared foreign key as stored per table in `kb_schema.json`
(`referenced_schema` and `constraint_name` fall back through `.get`). -/
structure FKDecl where
  column_name : String
  referenced_schema : Option String
  referenced_table_name : String
  referenced_column_name : String
  constraint_name : Option String
deriving DecidableEq, Repr

/-- The per-table slice of `kb_schema.json` read by `get_fk_edges` and
`build_fk_graph` (their loops touch only `foreign_keys`). -/
structure TableSchema where
  foreign_keys : List FKDecl
deriving Repr

/-- The slice of `kb_schema.json` read by `JoinGraphBuilder`: the schema
name and the tables map as an ordered association list. -/
structure KBSchema where
  schema_name : String
  tables : List (String × TableSchema)
deriving Repr

/-- `JoinGraphBuilder.get_fk_edges`: one child→parent edge per declared
foreign key (the docstring of the source says "child -> parent only"). -/
def get_fk_edges (kb : KBSchema) : List FKEdge :=
  kb.tables.flatMap (fun qt =>
    qt.2.foreign_keys.map (fun fk =>
      { from_table := qt.1,
        from_column := fk.column_name,
        to_table := (fk.referenced_schema.getD kb.schema_name) ++ "."
          ++ fk.referenced_table_name,
        to_column := fk.referenced_column_name,
        constraint_name := fk.constraint_name.getD "unknown" }))

/-- `RulesCompiler.compile_rules` lines 104-115: the `fk_edges` entry of
the Compiled Rules artifact serializes `get_fk_edges` field by field, so
it is the same list of records. -/
def compiled_fk_edges (kb : KBSchema) : List FKEdge :=
  get_fk_edges kb

/-- A directed edge insertion performed by
`JoinGraphBuilder.build_fk_graph`. -/
structure GraphEdge where
  src : String
  dst : String
  fk_column : String
  ref_column : String
deriving DecidableEq, Repr

/-- The edge insertions of `JoinGraphBuilder.build_fk_graph`: for every
declared FK a child→parent edge and the reversed parent→child edge with
the column roles swapped.  (networkx keeps one edge per (src, dst) pair,
overwriting attributes on duplicates; this list records every
insertion.) -/
def build_fk_graph_edges (kb : KBSchema) : List GraphEdge :=
  kb.tables.flatMap (fun qt =>
    qt.2.foreign_keys.flatMap (fun fk =>
      let refq := (fk.referenced_schema.getD kb.schema_name) ++ "."
        ++ fk.referenced_table_name
      [{ src := qt.1, dst := refq,
         fk_column := fk.column_name, ref_column := fk.referenced_column_name },
       { src := refq, dst := qt.1,
         fk_column := fk.referenced_column_name, ref_column := fk.column_name }]))

/-! ### `src/core/retrieval/kb_retriever.py`: `select_top_columns` -/

/-- `tokenize_text`: lowercase, replace `_` and `-` by spaces, and collect
the `\b\w+\b` word runs; the Python `set` is modelled as a deduplicated
list (only membership and intersection sizes are ever used). -/
def tokenize_text (text : String) : List String :=
  let replaced := (lower text).toList.map
    (fun c => if c = '_' || c = '-' then ' ' else c)
  dedupFirst (charRuns isWordChar replaced []) []

/-- `len(question_tokens & col_tokens)` for deduplicated token lists. -/
def interCount (s1 s2 : List String) : Nat :=
  (s1.filter (fun x => s2.contains x)).length

/-- A column entry of the KB tables map; `select_top_columns` reads only
`column_name`. -/
structure ColumnMeta where
  column_name : String
deriving DecidableEq, Repr

/-- Python `l[:n]` including the negative-stop semantics:
`l[:n] = l[0 : max(0, len(l) + n)]` when `n < 0`. -/
def pythonSliceTo {α : Type} (l : List α) (n : Int) : List α :=
  if 0 ≤ n then l.take n.toNat
  else l.take ((l.length : Int) + n).toNat

/-- Insertion step of Python `list.sort(key=…, reverse=True)` restricted
to what `select_top_columns` needs: stable descending order on the
relevance key. -/
def insertScoredDesc (x : Nat × ColumnMeta) :
    List (Nat × ColumnMeta) → List (Nat × ColumnMeta)
  | [] => [x]
  | y :: ys => if y.1 ≥ x.1 then y :: insertScoredDesc x ys else x :: y :: ys

/-- Stable descending sort by relevance (`scored_regular.sort(key=lambda
x: x[0], reverse=True)`). -/
def stableSortDesc (l : List (Nat × ColumnMeta)) : List (Nat × ColumnMeta) :=
  l.foldl (fun acc x => insertScoredDesc x acc) []

/-- The PK/FK test of the partition loop in `select_top_columns`. -/
def isKeyCol (pk_columns fk_columns : List String) (c : ColumnMeta) : Bool :=
  pk_columns.contains c.column_name || fk_columns.contains c.column_name

/-- `select_top_columns` from `src/core/retrieval/kb_retriever.py`:
partition into PK/FK and regular columns, score the regular ones by
question-token overlap, sort stably descending, and append
`scored_regular[:max_columns - len(pk_fk_cols)]` — with Python slice
semantics, so a negative remainder drops elements from the END of the
scored list rather than producing the empty list. -/
def select_top_columns (columns : List ColumnMeta)
    (question_tokens : List String) (pk_columns fk_columns : List String)
    (max_columns : Nat) : List ColumnMeta :=
  let pk_fk_cols := columns.filter (isKeyCol pk_columns fk_columns)
  let regular_cols := columns.filter (fun c => !isKeyCol pk_columns fk_columns c)
  let scored_regular := regular_cols.map
    (fun c => (interCount (tokenize_text c.column_name) question_tokens, c))
  let sorted := stableSortDesc scored_regular
  let remaining_slots : Int := (max_columns : Int) - (pk_fk_cols.length : Int)
  pk_fk_cols ++ (pythonSliceTo sorted remaining_slots).map (fun x => x.2)

/-! ### Token-level model of SQL text for the deterministic rewrites

The regex rewrites of `src/core/llm_sql_generator.py` act on SQL text via
the patterns `\bLIMIT\s+\d+\b` and `\bORDER\s+BY\s+[\w_.]+\s+(?:ASC|DESC)\b`.
SQL text is modelled here at token granularity: word chunks (including
dotted names), digit runs (kept as their exact digit string), and
punctuation; inter-token whitespace is abstracted away, which is exactly
the granularity at which those patterns match. -/

/-- A token of SQL text. -/
inductive Token where
  | word (s : String)
  | num (s : String)
  | sym (s : String)
deriving DecidableEq, Repr

/-- Case-insensitive `LIMIT` keyword test (`re.IGNORECASE`). -/
def isLimitWord (s : String) : Bool :=
  upper s = "LIMIT"

/-- `re.search(r"\bLIMIT\s+\d+\b", sql, re.IGNORECASE)` at token level. -/
def hasLimitPair : List Token → Bool
  | Token.word s :: Token.num k :: rest =>
    if isLimitWord s then true else hasLimitPair (Token.num k :: rest)
  | _ :: rest => hasLimitPair rest
  | [] => false

/-- `re.sub(r"\bLIMIT\s+\d+\b", f"LIMIT {new_limit}", sql, re.IGNORECASE)`:
every occurrence is replaced (by the upper-case replacement text). -/
def rewriteLimitScan (newLimit : Nat) : List Token → List Token
  | Token.word s :: Token.num k :: rest =>
    if isLimitWord s then
      Token.word "LIMIT" :: Token.num (toString newLimit) :: rewriteLimitScan newLimit rest
    else Token.word s :: rewriteLimitScan newLimit (Token.num k :: rest)
  | t :: rest => t :: rewriteLimitScan newLimit rest
  | [] => []

/-- `sql.rstrip(";")` at token level (the subsequent `rstrip()` is
whitespace-only and whitespace is abstracted). -/
def rstripSemiToks (toks : List Token) : List Token :=
  (toks.reverse.dropWhile (fun t => t = Token.sym ";")).reverse

/-- `LLMSQLGenerator._rewrite_limit`: replace every `LIMIT <n>`
occurrence, or append `LIMIT <n>` after stripping a trailing
semicolon. -/
def rewrite_limit (sql : List Token) (new_limit : Nat) : List Token :=
  if sql.isEmpty then sql
  else if hasLimitPair sql then rewriteLimitScan new_limit sql
  else rstripSemiToks sql ++ [Token.word "LIMIT", Token.num (toString new_limit)]

/-- The column position of the ORDER BY pattern (`[\w_.]+` also matches a
pure digit run). -/
def isColToken : Token → Bool
  | Token.word _ => true
  | Token.num _ => true
  | Token.sym _ => false

/-- The direction position of the ORDER BY pattern (`ASC|DESC`,
case-insensitive, with a following word boundary). -/
def isDirToken : Token → Bool
  | Token.word s => upper s = "ASC" || upper s = "DESC"
  | _ => false

/-- The four-token ORDER BY pattern
`\bORDER\s+BY\s+[\w_.]+\s+(?:ASC|DESC)\b` (case-insensitive). -/
def isOrderPattern (t1 t2 t3 t4 : Token) : Bool :=
  (match t1 with | Token.word s => upper s = "ORDER" | _ => false)
  && (match t2 with | Token.word s => upper s = "BY" | _ => false)
  && isColToken t3 && isDirToken t4

/-- `re.search` for the ORDER BY pattern. -/
def hasOrderPattern : List Token → Bool
  | t1 :: t2 :: t3 :: t4 :: rest =>
    if isOrderPattern t1 t2 t3 t4 then true
    else hasOrderPattern (t2 :: t3 :: t4 :: rest)
  | _ => false

/-- `re.sub` for the ORDER BY pattern: every occurrence becomes
`ORDER BY <col> <dir>`. -/
def rewriteOrderScan (col dir : String) : List Token → List Token
  | t1 :: t2 :: t3 :: t4 :: rest =>
    if isOrderPattern t1 t2 t3 t4 then
      Token.word "ORDER" :: Token.word "BY" :: Token.word col :: Token.word dir
        :: rewriteOrderScan col dir rest
    else t1 :: rewriteOrderScan col dir (t2 :: t3 :: t4 :: rest)
  | toks => toks

/-- `re.search(r"(\bLIMIT\s+\d+)", sql, re.IGNORECASE)`: the first LIMIT
pair, returned with its exact text (keyword casing and digit string). -/
def findFirstLimitPair : List Token → Option (String × String)
  | Token.word s :: Token.num k :: rest =>
    if isLimitWord s then some (s, k) else findFirstLimitPair (Token.num k :: rest)
  | _ :: rest => findFirstLimitPair rest
  | [] => none

/-- `sql.replace(limit_match.group(1), new_order_clause + "\n" +
limit_match.group(1))`: insert `ins` before every occurrence of the exact
pair text, scanning left to right without revisiting the insertion. -/
def insertBeforePair (s0 k0 : String) (ins : List Token) :
    List Token → List Token
  | Token.word s :: Token.num k :: rest =>
    if s = s0 && k = k0 then
      ins ++ Token.word s :: Token.num k :: insertBeforePair s0 k0 ins rest
    else Token.word s :: insertBeforePair s0 k0 ins (Token.num k :: rest)
  | t :: rest => t :: insertBeforePair s0 k0 ins rest
  | [] => []

/-- `LLMSQLGenerator._rewrite_order` with `order_info = {column := col,
direction := dir}`: replace an existing `ORDER BY <col> <dir>` clause
(all regex occurrences), else insert the new clause before the first
`LIMIT <n>` text (every occurrence of that exact text), else append it at
the end after stripping a trailing semicolon. -/
def rewrite_order (sql : List Token) (col dir : String) : List Token :=
  if sql.isEmpty then sql
  else
    let newClause := [Token.word "ORDER", Token.word "BY",
      Token.word col, Token.word dir]
    if hasOrderPattern sql then rewriteOrderScan col dir sql
    else
      match findFirstLimitPair sql with
      | some (s0, k0) => insertBeforePair s0 k0 newClause sql
      | none => rstripSemiToks sql ++ newClause

/-! ### `src/core/llm_sql_generator.py`: question parsing and
`generate_sql` -/

/-- Python `needle in hay` (substring containment). -/
def containsSub (needle hay : String) : Bool :=
  go needle.toList hay.toList
where
  go (n : List Char) : List Char → Bool
    | [] => (matchExact n []).isSome
    | c :: rest => (matchExact n (c :: rest)).isSome || go n rest

/-- `\d+\b` at the head of `cs`: the maximal digit run, required
non-empty and followed by a word boundary; returns its value. -/
def matchDigitsB (cs : List Char) : Option Nat :=
  let ds := cs.takeWhile Char.isDigit
  if ds.isEmpty then none
  else
    match cs.drop ds.length with
    | [] => some (digitsVal ds)
    | c :: _ => if isWordChar c then none else some (digitsVal ds)

/-- `<phrase>\s+(\d+)\b` at the head of `cs` (the question is already
lower-cased, so phrase matching is exact). -/
def matchPhraseNum (phrase : List Char) (cs : List Char) : Option Nat :=
  match matchExact phrase cs with
  | none => none
  | some rest =>
    let wsN := (rest.takeWhile Char.isWhitespace).length
    if wsN = 0 then none else matchDigitsB (rest.drop wsN)

/-- First `some` in a list of options (regex alternation order). -/
def firstSome : List (Option Nat) → Option Nat
  | [] => none
  | some n :: _ => some n
  | none :: rest => firstSome rest

/-- `re.search(r"\b(p1|p2|…)\s+(\d+)\b", text)`: leftmost
word-boundary-preceded position at which some alternative matches. -/
def searchPhrasesNum (phrases : List (List Char)) :
    Bool → List Char → Option Nat
  | _, [] => none
  | prevIsWord, c :: rest =>
    match (if !prevIsWord then
        firstSome (phrases.map (fun p => matchPhraseNum p (c :: rest)))
      else none) with
    | some n => some n
    | none => searchPhrasesNum phrases (isWordChar c) rest

/-- `^(\d+)$`. -/
def matchWholeDigits (cs : List Char) : Option Nat :=
  if !cs.isEmpty && cs.all Char.isDigit then some (digitsVal cs)
  else none

/-- The alternation of pattern 1 of `_parse_limit_value`. -/
def limit_phrases : List String :=
  ["make it", "increase to", "decrease to", "change to", "set to",
   "limit to", "show me", "give me"]

/-- `LLMSQLGenerator._parse_limit_value`: the five patterns tried in
order on the lower-cased, stripped question; the first match wins and its
digit group is returned as a number. -/
def parse_limit_value (question : String) : Option Nat :=
  let cs := (pyStrip (lower question)).toList
  match searchPhrasesNum (limit_phrases.map String.toList) false cs with
  | some n => some n
  | none =>
    match matchWholeDigits cs with
    | some n => some n
    | none =>
      match searchPhrasesNum ["top".toList] false cs with
      | some n => some n
      | none =>
        match searchPhrasesNum ["limit".toList] false cs with
        | some n => some n
        | none => searchPhrasesNum ["show".toList] false cs

/-- The direction alternatives of `_parse_order_clause`. -/
def dirWords : List String :=
  ["asc", "desc", "ascending", "descending"]

/-- `(?:sort|order)\s+by\s+([\w_]+)(?:\s+(asc|desc|ascending|descending))?\b`
at the head of `cs`, after the keyword `kw` has been chosen: returns the
column word and the optional direction word. -/
def matchSortBy (kw : List Char) (cs : List Char) :
    Option (String × Option String) :=
  match matchExact kw cs with
  | none => none
  | some rest =>
    let ws1 := (rest.takeWhile Char.isWhitespace).length
    if ws1 = 0 then none
    else
      match matchExact "by".toList (rest.drop ws1) with
      | none => none
      | some rest2 =>
        let ws2 := (rest2.takeWhile Char.isWhitespace).length
        if ws2 = 0 then none
        else
          let rest3 := rest2.drop ws2
          let col := rest3.takeWhile (fun c => isWordChar c)
          if col.isEmpty then none
          else
            let rest4 := rest3.drop col.length
            let ws3 := (rest4.takeWhile Char.isWhitespace).length
            let dcand := (rest4.drop ws3).takeWhile (fun c => isWordChar c)
            if ws3 > 0 && dirWords.contains (String.mk dcand) then
              some (String.mk col, some (String.mk dcand))
            else some (String.mk col, none)

/-- `re.search` for the sort pattern: leftmost word-boundary-preceded
position where `sort …` or `order …` matches. -/
def searchSortBy : Bool → List Char → Option (String × Option String)
  | _, [] => none
  | prevIsWord, c :: rest =>
    match (if !prevIsWord then
        match matchSortBy "sort".toList (c :: rest) with
        | some r => some r
        | none => matchSortBy "order".toList (c :: rest)
      else none) with
    | some r => some r
    | none => searchSortBy (isWordChar c) rest

/-- `LLMSQLGenerator._parse_order_clause`: the matched column together
with the normalized direction (`ASC` when the direction word starts with
`asc`, else `DESC`; `DESC` when absent). -/
def parse_order_clause (question : String) :
    Option (String × String) :=
  match searchSortBy false (pyStrip (lower question)).toList with
  | none => none
  | some (col, some d) =>
    some (col, if pyStartsWith d "asc" then "ASC" else "DESC")
  | some (col, none) => some (col, "DESC")

/-- `modification_keywords` from Step 0 of `generate_sql`. -/
def modification_keywords : List String :=
  ["delete", "remove", "drop", "update", "insert", "add row",
   "create table", "alter", "truncate", "grant", "revoke"]

/-- The refusal gate of `generate_sql`:
`any(re.search(rf"\b{re.escape(kw)}\b", question.lower()) for kw in
modification_keywords)`. -/
def question_triggers_refusal (question : String) : Bool :=
  modification_keywords.any
    (fun kw => wordBoundaryContains (lower question) kw)

/-- The `ClarificationRequest` dataclass.  `intent_data` models the
`partial_intent` dict as an association list; the boolean values of the
source (`True`) are stored as the string `"true"`. -/
structure ClarificationRequest where
  needs_clarification : Bool
  clarification_question : String
  original_question : String
  intent_data : List (String × String)
deriving DecidableEq, Repr

/-- `vague_phrases` of `_detect_incomplete_intent`. -/
def vague_phrases : List String :=
  ["show me data", "show data", "show details", "show info",
   "give me data", "tell me data"]

/-- The metric words of the top-branches check. -/
def branch_metric_words : List String :=
  ["collections", "repayments", "outstanding", "principal",
   "number of loans", "loan count"]

/-- The simple-list questions. -/
def simple_list_phrases : List String :=
  ["show loans", "list loans", "show borrowers", "list borrowers",
   "show branches", "list branches"]

/-- Python `str.split()` (whitespace runs, empties discarded). -/
def splitWords (s : String) : List String :=
  charRuns (fun c => !c.isWhitespace) s.toList []

/-- `LLMSQLGenerator._detect_incomplete_intent` over the lower-cased
question and the table keys of the compiled rules: the strongly-vague
gate, the top-branches-without-metric gate, and the simple-list gate. -/
def detect_incomplete_intent (question : String) (table_keys : List String) :
    ClarificationRequest :=
  let q := lower (pyStrip question)
  let table_tokens := table_keys.map (fun t => lower t)
    ++ table_keys.map (fun t => lower (lastDotComponent t))
  let table_mentioned := table_tokens.any (fun tok => containsSub tok q)
  let startsVague := ["show", "list", "display", "give", "get"].any
    (fun p => pyStartsWith q p)
  if vague_phrases.contains q
      || (startsVague && !table_mentioned && (splitWords q).length ≤ 4) then
    { needs_clarification := true,
      clarification_question := "Which table do you want (borrowers, loans, branches, collections, repayments, loan_documents, loan_status_history, field_officers)?",
      original_question := question,
      intent_data := [("vague", "true"), ("needs_table", "true")] }
  else if containsSub "top" q && containsSub "branch" q
      && !(branch_metric_words.any (fun k => containsSub k q)) then
    { needs_clarification := true,
      clarification_question := "Top branches by what metric: total collections, total repayments, total outstanding balance, total principal, or number of loans?",
      original_question := question,
      intent_data := [("entity", "branches"), ("needs_metric", "true")] }
  else if simple_list_phrases.contains q then
    { needs_clarification := true,
      clarification_question := "How many records do you want (e.g., 10, 20, 50) and should it be latest-first?",
      original_question := question,
      intent_data := [("entity", (splitWords q).getLastD ""), ("needs_limit", "true")] }
  else
    { needs_clarification := false, clarification_question := "",
      original_question := question, intent_data := [] }

/-- Continuation types of the Context Resolver. -/
inductive ContinuationType where
  | NEW | REFINE | DRILLDOWN
deriving DecidableEq, Repr

/-- A session turn as read by `generate_sql`: the stored question, the
executed SQL (at token granularity; `none` models a missing SQL), and the
intent-summary dict (values stored as strings). -/
structure Turn where
  question : String
  sql : Option (List Token)
  intent_summary : List (String × String)
deriving Repr

/-- The preserved dimensions of a resolved context; `generate_sql` reads
only the `tables` field (`resolved_context.preserved_dimensions.tables or
[]`), so only it is modelled. -/
structure PreservedDimensions where
  tables : Option (List String)
deriving Repr

/-- The `ResolvedContext` record produced by the Context Resolver, in the
shape `generate_sql` consumes. -/
structure ResolvedContext where
  is_related : Bool
  continuation_type : ContinuationType
  anchor_turn : Option Turn
  preserved_dimensions : PreservedDimensions
  refinement_instruction : Option String
deriving Repr

/-- The parsed JSON object returned by
`llm_provider.generate_structured_completion` as read in Step 4 of
`generate_sql` (after `response.get` defaults and `.strip()`); it enters
the embedding as data since the LLM call is external. -/
structure LLMResponse where
  sql : List Token
  confidence : ℚ
  tables_used : List String
  intent_summary : List (String × String)
deriving Repr

/-- The `SQLGenerationResult` dataclass. -/
structure SQLGenerationResult where
  sql : Option (List Token)
  confidence : ℚ
  tables_used : List String
  intent_summary : List (String × String)
  clarification : Option ClarificationRequest
deriving Repr

/-- Python dict assignment `m[k] = v` on the association-list model. -/
def dictSet (m : List (String × String)) (k v : String) :
    List (String × String) :=
  if (m.lookup k).isSome then
    m.map (fun p => if p.1 = k then (k, v) else p)
  else m ++ [(k, v)]

/-- Python truthiness of an optional string (`None` and `""` falsy). -/
def optStrTruthy : Option String → Bool
  | none => false
  | some s => s ≠ ""

/-- The deterministic-refinement fast path (Step 0.5 of `generate_sql`):
`some` result when the path returns, `none` when it falls through to the
clarification gate and the LLM. -/
def deterministic_refinement (question : String)
    (resolved_context : Option ResolvedContext) :
    Option SQLGenerationResult :=
  match resolved_context with
  | none => none
  | some rc =>
    if !rc.is_related then none
    else
      match rc.anchor_turn with
      | none => none
      | some anchor =>
        match anchor.sql with
        | none => none
        | some prev =>
          if prev.isEmpty then none
          else if rc.refinement_instruction = some "limit_change" then
            match parse_limit_value question with
            | some n =>
              if n ≠ 0 then
                some { sql := some (rewrite_limit prev n),
                       confidence := 99 / 100,
                       tables_used := rc.preserved_dimensions.tables.getD [],
                       intent_summary := dictSet anchor.intent_summary "limit" (toString n),
                       clarification := none }
              else none
            | none => none
          else if rc.refinement_instruction = some "order_change" then
            match parse_order_clause question with
            | some (col, dir) =>
              some { sql := some (rewrite_order prev col dir),
                     confidence := 99 / 100,
                     tables_used := rc.preserved_dimensions.tables.getD [],
                     intent_summary := dictSet anchor.intent_summary "ordering" (col ++ " " ++ dir),
                     clarification := none }
            | none => none
          else none

/-- Steps 1-4 of `generate_sql` after the refusal gate and the
deterministic fast path have fallen through: the clarification gate (only
for NEW questions without a clarification answer), else the LLM path
(whose parsed response is the `llm_response` input). -/
def clarification_or_llm (question : String) (table_keys : List String)
    (resolved_context : Option ResolvedContext)
    (clarification_answer : Option String)
    (llm_response : LLMResponse) : SQLGenerationResult :=
  let llm_result : SQLGenerationResult :=
    { sql := some llm_response.sql,
      confidence := llm_response.confidence,
      tables_used := llm_response.tables_used,
      intent_summary := llm_response.intent_summary,
      clarification := none }
  let should_check := !optStrTruthy clarification_answer
    && (match resolved_context with
        | none => true
        | some rc => rc.continuation_type = ContinuationType.NEW)
  if should_check then
    let clar := detect_incomplete_intent question table_keys
    if clar.needs_clarification then
      { sql := none, confidence := 0, tables_used := [],
        intent_summary := clar.intent_data, clarification := some clar }
    else llm_result
  else llm_result

/-- `LLMSQLGenerator.generate_sql`: the refusal gate (Step 0), the
deterministic-refinement fast path (Step 0.5), then
`clarification_or_llm` (Steps 1-4). -/
def generate_sql (question : String) (table_keys : List String)
    (resolved_context : Option ResolvedContext)
    (clarification_answer : Option String)
    (llm_response : LLMResponse) : SQLGenerationResult :=
  if question_triggers_refusal question then
    { sql := none, confidence := 0, tables_used := [], intent_summary := [],
      clarification := some
        { needs_clarification := false, clarification_question := "",
          original_question := question,
          intent_data := [("refusal", "read_only_system")] } }
  else
    match deterministic_refinement question resolved_context with
    | some r => r
    | none => clarification_or_llm question table_keys resolved_context
        clarification_answer llm_response

/-! ### `src/api/routes.py`: the `/query` dispatch on a generation
result -/

/-- The four ways the `/query` route continues after `generate_sql`
(lines 80-121): the read-only refusal envelope, the clarification
envelope, the empty-SQL guard envelope, and proceeding to validation. -/
inductive RouteReply where
  | refusalReply (refusal_message : String)
  | clarificationReply (clarification_question : String)
      (intent_data : List (String × String))
  | emptySqlReply
  | proceed (sql : List Token)
deriving Repr

/-- The empty-SQL defensive guard (`not sql_result.sql or not
str(sql_result.sql).strip()`). -/
def sql_dispatch : Option (List Token) → RouteReply
  | none => RouteReply.emptySqlReply
  | some toks =>
    if toks.isEmpty then RouteReply.emptySqlReply else RouteReply.proceed toks

/-- The dispatch of the `/query` route on the generation result: refusal
check first, then clarification check, then the empty-SQL guard; the
refusal envelope carries `needs_clarification=False` and the fixed
read-only `refusal_message`. -/
def query_route_dispatch (r : SQLGenerationResult) : RouteReply :=
  match r.clarification with
  | some c =>
    if c.intent_data.lookup "refusal" = some "read_only_system" then
      RouteReply.refusalReply
        "This system is read-only. DELETE/UPDATE/INSERT/DDL operations are not allowed."
    else if c.needs_clarification then
      RouteReply.clarificationReply c.clarification_question c.intent_data
    else sql_dispatch r.sql
  | none => sql_dispatch r.sql

/-! ### Statement helpers and concrete inputs used by the theorems -/

/-- The resolved pair of an EQ join predicate matches some compiled FK
edge in one of the two orientations — the property the JOIN ON validator
enforces. -/
def fkEdgeMatches (edges : List FKEdge) (q : QualEq) : Prop :=
  ∃ e ∈ edges,
    (e.from_table = q.lt ∧ e.from_column = q.lc
      ∧ e.to_table = q.rt ∧ e.to_column = q.rc)
    ∨ (e.from_table = q.rt ∧ e.from_column = q.rc
      ∧ e.to_table = q.lt ∧ e.to_column = q.lc)

/-- The edge with both table/column sides swapped (the reversed direction
of a foreign key). -/
def FKEdge.reversed (e : FKEdge) : FKEdge :=
  { from_table := e.to_table, from_column := e.to_column,
    to_table := e.from_table, to_column := e.from_column,
    constraint_name := e.constraint_name }

/-- Number of positions at which two token lists differ (zipped
positionally). -/
def tokenDiffCount : List Token → List Token → Nat
  | a :: as2, b :: bs2 => (if a = b then 0 else 1) + tokenDiffCount as2 bs2
  | _, _ => 0

/-- A validator input accepted end to end: a single parsed SELECT with a
compliant LIMIT and no blocked content. -/
def c1_input : ValidateInput :=
  { sql := "SELECT x FROM core.loans LIMIT 10",
    parsed := some (Ast.node ExpKind.Select [Ast.node ExpKind.OtherKind []]),
    stmt_count := 1,
    non_select_enhanced := false,
    other_errors := [], other_warnings := [],
    ast_sql := "SELECT x FROM core.loans LIMIT 10",
    has_limit := true, limit_value := some 10 }

/-- One declared FK edge: `core.loans.borrower_id → core.borrowers.id`. -/
def c2_edges : List FKEdge :=
  [{ from_table := "core.loans", from_column := "borrower_id",
     to_table := "core.borrowers", to_column := "id",
     constraint_name := "loans_borrower_id_fkey" }]

/-- `JOIN core.borrowers b ON l.borrower_id = b.id`. -/
def c2_join : JoinClause :=
  { tables := [{ name := "borrowers", db := some "core", alias0 := some "b" }],
    on_cond := some (OnCond.eqCond
      (OnOperand.column (some "l") "borrower_id")
      (OnOperand.column (some "b") "id")) }

/-- `FROM core.loans l JOIN core.borrowers b ON l.borrower_id = b.id`. -/
def c2_stmt : ParsedStmt :=
  { from_tables := [{ name := "loans", db := some "core", alias0 := some "l" }],
    joins := [c2_join],
    cte_names := [] }

/-- A placeholder LLM response (the paths under test never reach the LLM
call). -/
def dummy_llm : LLMResponse :=
  { sql := [Token.word "SELECT", Token.num "1"], confidence := 0,
    tables_used := [], intent_summary := [] }

/-- Anchor SQL containing two LIMIT clauses (a sub-select with its own
LIMIT): `SELECT * FROM (SELECT * FROM core.loans LIMIT 3) s LIMIT 2`. -/
def c5_anchor : List Token :=
  [Token.word "SELECT", Token.sym "*", Token.word "FROM", Token.sym "(",
   Token.word "SELECT", Token.sym "*", Token.word "FROM", Token.word "core.loans",
   Token.word "LIMIT", Token.num "3", Token.sym ")", Token.word "s",
   Token.word "LIMIT", Token.num "2"]

/-- A related REFINE context anchored on `c5_anchor` with a limit-change
instruction. -/
def c5_rc : ResolvedContext :=
  { is_related := true, continuation_type := ContinuationType.REFINE,
    anchor_turn := some { question := "show top 2 loans",
                          sql := some c5_anchor,
                          intent_summary := [("limit", "2")] },
    preserved_dimensions := { tables := some ["core.loans"] },
    refinement_instruction := some "limit_change" }

/-- Anchor SQL with a single LIMIT clause. -/
def c5_anchor1 : List Token :=
  [Token.word "SELECT", Token.word "x", Token.word "FROM",
   Token.word "core.loans", Token.word "LIMIT", Token.num "2"]

/-- A related REFINE context anchored on `c5_anchor1`. -/
def c5_rc1 : ResolvedContext :=
  { is_related := true, continuation_type := ContinuationType.REFINE,
    anchor_turn := some { question := "show top 2 loans",
                          sql := some c5_anchor1,
                          intent_summary := [("limit", "2")] },
    preserved_dimensions := { tables := some ["core.loans"] },
    refinement_instruction := some "limit_change" }

/-- A KB schema with exactly one declared foreign key
(`core.loans.borrower_id → core.borrowers.id`). -/
def c6_schema : KBSchema :=
  { schema_name := "core",
    tables :=
      [("core.loans",
        { foreign_keys :=
            [{ column_name := "borrower_id",
               referenced_schema := some "core",
               referenced_table_name := "borrowers",
               referenced_column_name := "id",
               constraint_name := some "loans_borrower_id_fkey" }] }),
       ("core.borrowers", { foreign_keys := [] })] }

/-- The single compiled FK edge of `c6_schema`. -/
def c6_edge : FKEdge :=
  { from_table := "core.loans", from_column := "borrower_id",
    to_table := "core.borrowers", to_column := "id",
    constraint_name := "loans_borrower_id_fkey" }

/-- Six columns of which the first three are keys (`a` a primary key,
`b` and `c` foreign keys). -/
def c10_columns : List ColumnMeta :=
  [⟨"a"⟩, ⟨"b"⟩, ⟨"c"⟩, ⟨"d"⟩, ⟨"e"⟩, ⟨"f"⟩]

/-! ## Theorems -/

/-- C3: whenever the body of `validate_join_on_clauses` raises any
internal exception, the `except` handler returns success with an empty
error list — the JOIN-ON FK check reports the statement as valid, i.e.
the enforcement fails open. -/
theorem c3_join_on_check_fails_open (e : String) :
    validate_join_on_clauses_caught (Except.error e) = (true, []) := rfl

/-- C8 counterexample: with the default policies (soft max 4, hard cap 6,
deep threshold 5), a statement at join depth exactly 4 — the soft
maximum — is allowed but produces NO warning, contradicting the claim
that a warning is emitted at exactly the soft maximum. -/
theorem c8_counterexample :
    check_join_depth {} 4 false
      = { is_valid := true, errors := [], warnings := [] }
    ∧ ({} : DepthPolicies).max_join_depth = 4 := by
  constructor <;> rfl

/-- C8 (amended): at join depth exactly the soft maximum the statement is
allowed with NO warning (warnings require depth strictly above the soft
maximum), and no WHERE clause is required provided the soft maximum lies
below the deep-join threshold and within the hard cap. -/
theorem c8_depth_at_soft_max_allowed_no_warning
    (p : DepthPolicies) (has_where : Bool)
    (h1 : p.max_join_depth ≤ p.hard_cap_join_depth)
    (h2 : p.max_join_depth < p.deep_join_threshold) :
    check_join_depth p p.max_join_depth has_where
      = { is_valid := true, errors := [], warnings := [] } := by
  unfold check_join_depth
  have hc1 : ¬ p.max_join_depth > p.hard_cap_join_depth := by omega
  have hc2 : ¬ p.max_join_depth > p.max_join_depth := by omega
  have hc3 : (decide (p.max_join_depth ≥ p.deep_join_threshold)
      && p.require_where_for_deep_joins && !has_where) = false := by
    have : ¬ p.max_join_depth ≥ p.deep_join_threshold := by omega
    simp [this]
  simp [hc1, hc2, hc3]

/-- C8 witness: the amended statement instantiated at the default
policies and depth 4 with no WHERE clause. -/
theorem c8_depth_at_soft_max_allowed_no_warning_witness :
    check_join_depth {} ({} : DepthPolicies).max_join_depth false
      = { is_valid := true, errors := [], warnings := [] } :=
  c8_depth_at_soft_max_allowed_no_warning {} false (by decide) (by decide)

/-- C9: the LIMIT-enforcement step of the validator is a no-op on
compliant input — when the AST already has a LIMIT whose parsed value is
at most `max_limit`, the SQL text is returned unchanged with no LIMIT
warning; injection of `default_limit` happens exactly when there is no
LIMIT, capping to `max_limit` exactly when the parsed value exceeds it;
and `validate_sql` returns exactly this step's SQL and warnings. -/
theorem c9_limit_enforcement_idempotent
    (sql ast_sql : String) (has_limit : Bool) (lv : Option Nat)
    (dl ml : Nat) :
    (has_limit = true → (∀ v, lv = some v → v ≤ ml) →
      enforce_limit sql ast_sql has_limit lv dl ml = (sql, []))
    ∧ (has_limit = false →
        enforce_limit sql ast_sql has_limit lv dl ml
          = (inject_limit ast_sql dl,
             ["No LIMIT specified. Auto-injected LIMIT " ++ toString dl]))
    ∧ (∀ v, has_limit = true → lv = some v → v > ml →
        enforce_limit sql ast_sql has_limit lv dl ml
          = (inject_limit ast_sql ml,
             ["LIMIT " ++ toString v ++ " exceeds maximum " ++ toString ml
               ++ ". Capped to " ++ toString ml]))
    ∧ (∀ inp : ValidateInput, inp.sql = sql → inp.ast_sql = ast_sql →
        inp.has_limit = has_limit → inp.limit_value = lv →
        pyStrip inp.sql ≠ "" → ∀ ast, inp.parsed = some ast →
        (validate_sql inp dl ml).sql
            = (enforce_limit sql ast_sql has_limit lv dl ml).1
          ∧ (validate_sql inp dl ml).warnings
            = inp.other_warnings ++ (enforce_limit sql ast_sql has_limit lv dl ml).2) := by
  refine ⟨?_, ?_, ?_, ?_⟩
  · intro hl hle
    unfold enforce_limit
    simp only [hl]
    match hv : lv with
    | none => simp
    | some v =>
      have : ¬ v > ml := by have := hle v rfl; omega
      simp [this]
  · intro hl
    unfold enforce_limit
    simp [hl]
  · intro v hl hv hgt
    unfold enforce_limit
    simp [hl, hv, hgt]
  · intro inp h1 h2 h3 h4 htrim ast hast
    unfold validate_sql
    rw [if_neg htrim, hast]
    rw [h1, h2, h3, h4]
    exact ⟨rfl, rfl⟩

/-- C9 witness: a statement with `LIMIT 10 ≤ max_limit 2000` passes the
enforcement step unchanged and without warnings. -/
theorem c9_limit_enforcement_idempotent_witness :
    enforce_limit "SELECT x FROM core.loans LIMIT 10"
        "SELECT x FROM core.loans LIMIT 10" true (some 10) 200 2000
      = ("SELECT x FROM core.loans LIMIT 10", []) :=
  (c9_limit_enforcement_idempotent "SELECT x FROM core.loans LIMIT 10"
    "SELECT x FROM core.loans LIMIT 10" true (some 10) 200 2000).1
    rfl (by intro v hv; cases hv; decide)

/-- C10 counterexample: with three key columns (`a`, `b`, `c`) and
`max_columns = 2`, the retained list has FIVE columns — the Python
negative slice `scored_regular[:-1]` appends two non-key columns on top
of the three keys — so the budget claimed to never be exceeded is
exceeded. -/
theorem c10_counterexample :
    (select_top_columns c10_columns [] ["a"] ["b", "c"] 2).length = 5
    ∧ ¬ ((select_top_columns c10_columns [] ["a"] ["b", "c"] 2).length ≤ 2) := by
  constructor <;> decide

/-- C10 (amended): `select_top_columns` always retains every PK/FK
column, and the `max_columns_per_table` budget is honoured exactly when
the PK/FK columns fit within it; when they do not, all keys are kept and
further scored non-key columns may be appended (see the
counterexample). -/
theorem c10_keys_kept_and_cap_when_feasible
    (columns : List ColumnMeta) (qt pk fk : List String) (maxc : Nat) :
    (∀ c ∈ columns, isKeyCol pk fk c = true →
      c ∈ select_top_columns columns qt pk fk maxc)
    ∧ ((columns.filter (isKeyCol pk fk)).length ≤ maxc →
        (select_top_columns columns qt pk fk maxc).length ≤ maxc) := by
  constructor
  · intro c hc hk
    unfold select_top_columns
    exact List.mem_append_left _ (List.mem_filter.mpr ⟨hc, hk⟩)
  · intro hfit
    unfold select_top_columns pythonSliceTo
    rw [List.length_append, List.length_map]
    set keyLen := (columns.filter (isKeyCol pk fk)).length with hkl
    have hnonneg : (0 : Int) ≤ (maxc : Int) - (keyLen : Int) := by omega
    rw [if_pos hnonneg, List.length_take]
    omega

/-- C10 witness: the amended statement at a feasible instance — one key
column, budget 3: the key is retained and the total respects the
budget. -/
theorem c10_keys_kept_and_cap_when_feasible_witness :
    (⟨"id"⟩ : ColumnMeta) ∈ select_top_columns
        [⟨"id"⟩, ⟨"name"⟩, ⟨"address"⟩, ⟨"phone"⟩] ["name"] ["id"] [] 3
    ∧ (select_top_columns
        [⟨"id"⟩, ⟨"name"⟩, ⟨"address"⟩, ⟨"phone"⟩] ["name"] ["id"] [] 3).length ≤ 3 :=
  ⟨(c10_keys_kept_and_cap_when_feasible
      [⟨"id"⟩, ⟨"name"⟩, ⟨"address"⟩, ⟨"phone"⟩] ["name"] ["id"] [] 3).1
      ⟨"id"⟩ (by decide) (by decide),
   (c10_keys_kept_and_cap_when_feasible
      [⟨"id"⟩, ⟨"name"⟩, ⟨"address"⟩, ⟨"phone"⟩] ["name"] ["id"] [] 3).2
      (by decide)⟩

/-- C6 counterexample: for the one-FK schema `c6_schema`, the compiled
`fk_edges` list does NOT contain the reversed direction of its edge —
`get_fk_edges` emits child→parent only, so the artifact is not
bidirectional. -/
theorem c6_counterexample :
    ¬ (∀ e ∈ compiled_fk_edges c6_schema,
        ∃ e2 ∈ compiled_fk_edges c6_schema,
          e2.from_table = e.to_table ∧ e2.from_column = e.to_column
          ∧ e2.to_table = e.from_table ∧ e2.to_column = e.from_column) := by
  decide

/-- C6 (amended): the flat `fk_edges` list of the Compiled Rules holds
exactly one child→parent record per declared foreign key; the
bidirectionality promised by the spec lives elsewhere — the JOIN ON
validator's `fk_lookup` contains both orientations of every edge, and
`build_fk_graph` inserts both directed graph edges per declared FK. -/
theorem c6_fk_edges_one_directional_lookup_bidirectional
    (kb : KBSchema) (edges : List FKEdge) :
    (∀ e ∈ compiled_fk_edges kb, ∃ t ∈ kb.tables, ∃ fk ∈ t.2.foreign_keys,
        e.from_table = t.1 ∧ e.from_column = fk.column_name
        ∧ e.to_table = (fk.referenced_schema.getD kb.schema_name) ++ "."
            ++ fk.referenced_table_name
        ∧ e.to_column = fk.referenced_column_name)
    ∧ (∀ e ∈ edges,
        (e.from_table, e.from_column, e.to_table, e.to_column) ∈ fk_lookup edges
        ∧ (e.to_table, e.to_column, e.from_table, e.from_column) ∈ fk_lookup edges)
    ∧ (∀ t ∈ kb.tables, ∀ fk ∈ t.2.foreign_keys,
        ({ src := t.1,
           dst := (fk.referenced_schema.getD kb.schema_name) ++ "."
             ++ fk.referenced_table_name,
           fk_column := fk.column_name,
           ref_column := fk.referenced_column_name } : GraphEdge)
            ∈ build_fk_graph_edges kb
        ∧ ({ src := (fk.referenced_schema.getD kb.schema_name) ++ "."
               ++ fk.referenced_table_name,
             dst := t.1,
             fk_column := fk.referenced_column_name,
             ref_column := fk.column_name } : GraphEdge)
            ∈ build_fk_graph_edges kb) := by
  refine ⟨?_, ?_, ?_⟩
  · intro e he
    unfold compiled_fk_edges get_fk_edges at he
    obtain ⟨t, ht, he2⟩ := List.mem_flatMap.mp he
    obtain ⟨fk, hfk, rfl⟩ := List.mem_map.mp he2
    exact ⟨t, ht, fk, hfk, rfl, rfl, rfl, rfl⟩
  · intro e he
    constructor
    · exact List.mem_flatMap.mpr ⟨e, he, by simp⟩
    · exact List.mem_flatMap.mpr ⟨e, he, by simp⟩
  · intro t ht fk hfk
    constructor
    · exact List.mem_flatMap.mpr ⟨t, ht,
        List.mem_flatMap.mpr ⟨fk, hfk, by simp⟩⟩
    · exact List.mem_flatMap.mpr ⟨t, ht,
        List.mem_flatMap.mpr ⟨fk, hfk, by simp⟩⟩

/-- C6 witness: the amended statement at `c6_schema` — both orientations
of its single compiled edge are in the validator's FK lookup. -/
theorem c6_fk_edges_lookup_bidirectional_witness :
    ("core.loans", "borrower_id", "core.borrowers", "id")
        ∈ fk_lookup (compiled_fk_edges c6_schema)
    ∧ ("core.borrowers", "id", "core.loans", "borrower_id")
        ∈ fk_lookup (compiled_fk_edges c6_schema) :=
  (c6_fk_edges_one_directional_lookup_bidirectional c6_schema
    (compiled_fk_edges c6_schema)).2.1 c6_edge (by decide)

/-- C7: the blocked-keyword check runs on the SQL text with string
literals, quoted identifiers and comments stripped and matches at word
boundaries only: `SELECT 'DELETE'` reports nothing, a bare blocked word
is reported, and the reported list is exactly the blocked keywords with a
word-boundary occurrence in the stripped text. -/
theorem c7_blocked_keyword_scan :
    check_blocked_keywords "SELECT \x27DELETE\x27" = []
    ∧ check_blocked_keywords "DELETE FROM core.loans" = ["DELETE"]
    ∧ (∀ sql kw, kw ∈ BLOCKED_KEYWORDS →
        wordBoundaryContains (strip_sql_literals_and_comments sql) kw = true →
        kw ∈ check_blocked_keywords sql)
    ∧ (∀ sql kw, kw ∈ check_blocked_keywords sql →
        kw ∈ BLOCKED_KEYWORDS
        ∧ wordBoundaryContains (strip_sql_literals_and_comments sql) kw = true) := by
  refine ⟨by decide, by decide, ?_, ?_⟩
  · intro sql kw hkw hw
    unfold check_blocked_keywords
    by_cases hc : strip_sql_literals_and_comments sql = ""
    · rw [hc] at hw
      have hz : wordBoundaryContains "" kw = false := rfl
      rw [hz] at hw
      cases hw
    · simp only [if_neg hc]
      exact List.mem_filter.mpr ⟨hkw, hw⟩
  · intro sql kw hmem
    unfold check_blocked_keywords at hmem
    by_cases hc : strip_sql_literals_and_comments sql = ""
    · simp only [if_pos hc] at hmem
      cases hmem
    · simp only [if_neg hc] at hmem
      exact ⟨(List.mem_filter.mp hmem).1, (List.mem_filter.mp hmem).2⟩

/-- C7 witness: the universally quantified part instantiated at a bare
`DROP` statement. -/
theorem c7_blocked_keyword_scan_witness :
    "DROP" ∈ check_blocked_keywords "DROP TABLE core.loans" :=
  c7_blocked_keyword_scan.2.2.1 "DROP TABLE core.loans" "DROP"
    (by decide) (by decide)

/-- Inversion of `is_select_only = true`: no forbidden node anywhere, an
allowed root kind, and a SELECT-like final query under a WITH root. -/
theorem is_select_only_spec (ast : Ast)
    (h : is_select_only (some ast) = true) :
    (∀ t ∈ forbidden_class_names, containsKind t ast = false)
    ∧ ast.kind ∈ allowed_root_kinds
    ∧ (ast.kind = ExpKind.With →
        ∀ fq ∈ ast.children.head?, fq.kind ∈ select_like_kinds) := by
  unfold is_select_only at h
  dsimp only at h
  by_cases hf : forbidden_class_names.any (fun t => containsKind t ast) = true
  · rw [if_pos hf] at h
    cases h
  · rw [if_neg hf] at h
    have hforb : ∀ t ∈ forbidden_class_names, containsKind t ast = false := by
      intro t ht
      by_contra hct
      exact hf (List.any_eq_true.mpr ⟨t, ht, by
        cases hcc : containsKind t ast with
        | true => rfl
        | false => exact absurd hcc hct⟩)
    by_cases hroot : allowed_root_kinds.contains ast.kind = true
    · rw [if_pos hroot] at h
      refine ⟨hforb, List.mem_of_elem_eq_true hroot, ?_⟩
      intro hwith fq hfq
      rw [show (ast.kind == ExpKind.With) = true by
        rw [hwith]; rfl] at h
      simp only [if_pos] at h
      cases hhd : ast.children.head? with
      | none => rw [hhd] at hfq; cases hfq
      | some fq2 =>
        rw [hhd] at h hfq
        cases hfq
        exact List.mem_of_elem_eq_true h
    · rw [if_neg hroot] at h
      cases h

/-- C1: every statement the validator accepts (`is_valid = true`) parsed
to an AST free of the forbidden node kinds (Insert, Update, Delete,
Merge, Create, Drop, Alter, Truncate, Rename, Grant, Revoke, Command,
Set, Use, Kill), rooted at an allowed query kind (Select, Union,
Intersect, Except, Subquery, With) with a SELECT-like final query under a
WITH root; and the text parsed as at most one top-level statement. -/
theorem c1_accepted_is_select_only
    (inp : ValidateInput) (dl ml : Nat)
    (h : (validate_sql inp dl ml).is_valid = true) :
    ∃ ast, inp.parsed = some ast
      ∧ (∀ t ∈ forbidden_class_names, containsKind t ast = false)
      ∧ ast.kind ∈ allowed_root_kinds
      ∧ (ast.kind = ExpKind.With →
          ∀ fq ∈ ast.children.head?, fq.kind ∈ select_like_kinds)
      ∧ inp.stmt_count ≤ 1 := by
  unfold validate_sql at h
  by_cases hs : pyStrip inp.sql = ""
  · rw [if_pos hs] at h
    cases h
  · rw [if_neg hs] at h
    cases hp : inp.parsed with
    | none =>
      rw [hp] at h
      cases h
    | some ast =>
      rw [hp] at h
      simp only [List.isEmpty_iff, List.append_eq_nil] at h
      obtain ⟨⟨⟨⟨h2, h3⟩, h3b⟩, h4⟩, hother⟩ := h
      have hst : inp.stmt_count = 1 := by
        by_contra hne
        rw [if_neg hne] at h2
        cases h2
      have hsel : is_select_only (some ast) = true := by
        by_cases hso : is_select_only (some ast) = true
        · exact hso
        · rw [if_neg hso] at h3
          cases h3
      obtain ⟨ha, hb, hc⟩ := is_select_only_spec ast hsel
      exact ⟨ast, rfl, ha, hb, hc, by omega⟩

/-- C1 witness: the theorem applied to a concrete accepted input. -/
theorem c1_accepted_is_select_only_witness :
    ∃ ast, c1_input.parsed = some ast
      ∧ (∀ t ∈ forbidden_class_names, containsKind t ast = false)
      ∧ ast.kind ∈ allowed_root_kinds
      ∧ (ast.kind = ExpKind.With →
          ∀ fq ∈ ast.children.head?, fq.kind ∈ select_like_kinds)
      ∧ c1_input.stmt_count ≤ 1 :=
  c1_accepted_is_select_only c1_input 200 2000 (by decide)

/-- Every result returned by the deterministic-refinement fast path has
`clarification = None`. -/
theorem deterministic_refinement_clarification_none
    (question : String) (rc : Option ResolvedContext)
    (r : SQLGenerationResult)
    (h : deterministic_refinement question rc = some r) :
    r.clarification = none := by
  unfold deterministic_refinement at h
  repeat' split at h
  all_goals
    first
      | (rw [Option.some.injEq] at h; rw [← h])
      | exact absurd h (by simp)

/-- No clarification emitted by `_detect_incomplete_intent` carries a
`refusal` key in its partial intent. -/
theorem detect_incomplete_intent_no_refusal
    (question : String) (table_keys : List String) :
    (detect_incomplete_intent question table_keys).intent_data.lookup "refusal"
      = none := by
  unfold detect_incomplete_intent
  dsimp only
  split_ifs <;> rfl

/-- The empty-SQL guard and the proceed path are never the refusal
envelope. -/
theorem sql_dispatch_ne_refusal (o : Option (List Token)) (msg : String) :
    sql_dispatch o ≠ RouteReply.refusalReply msg := by
  cases o with
  | none => simp [sql_dispatch]
  | some toks =>
    by_cases he : toks.isEmpty = true <;> simp [sql_dispatch, he]

/-- The clarification gate and the LLM path never produce a
refusal-tagged result nor the refusal envelope. -/
theorem clarification_or_llm_no_refusal (question : String)
    (table_keys : List String) (rc : Option ResolvedContext)
    (ca : Option String) (resp : LLMResponse) :
    (∀ c, (clarification_or_llm question table_keys rc ca resp).clarification
        = some c → c.intent_data.lookup "refusal" = none)
    ∧ ∀ msg, query_route_dispatch
        (clarification_or_llm question table_keys rc ca resp)
        ≠ RouteReply.refusalReply msg := by
  unfold clarification_or_llm
  dsimp only
  split
  · split
    · next hneed =>
      constructor
      · intro c hc
        injection hc with hc2
        rw [← hc2]
        exact detect_incomplete_intent_no_refusal question table_keys
      · intro msg
        unfold query_route_dispatch
        dsimp only
        rw [detect_incomplete_intent_no_refusal question table_keys]
        rw [if_neg (by simp)]
        rw [if_pos hneed]
        simp
    · constructor
      · intro c hc
        cases hc
      · intro msg
        unfold query_route_dispatch
        dsimp only
        exact sql_dispatch_ne_refusal _ msg
  · constructor
    · intro c hc
      cases hc
    · intro msg
      unfold query_route_dispatch
      dsimp only
      exact sql_dispatch_ne_refusal _ msg

/-- C4: a question containing any modification keyword as a whole word
makes `generate_sql` return the refusal outcome — `sql = None` and a
clarification record tagged `refusal = read_only_system` — which the
`/query` route turns into the success envelope with the fixed read-only
`refusal_message`; a question without such a word never produces the
refusal envelope (in particular questions containing only `change` or
`modify`). -/
theorem c4_refusal_gate
    (question : String) (table_keys : List String)
    (rc : Option ResolvedContext) (ca : Option String) (resp : LLMResponse) :
    (question_triggers_refusal question = true →
      (generate_sql question table_keys rc ca resp).sql = none
      ∧ (generate_sql question table_keys rc ca resp).clarification
          = some { needs_clarification := false, clarification_question := "",
                   original_question := question,
                   intent_data := [("refusal", "read_only_system")] }
      ∧ query_route_dispatch (generate_sql question table_keys rc ca resp)
          = RouteReply.refusalReply
              "This system is read-only. DELETE/UPDATE/INSERT/DDL operations are not allowed.")
    ∧ (question_triggers_refusal question = false →
        (∀ c, (generate_sql question table_keys rc ca resp).clarification = some c →
            c.intent_data.lookup "refusal" = none)
        ∧ ∀ msg, query_route_dispatch (generate_sql question table_keys rc ca resp)
            ≠ RouteReply.refusalReply msg)
    ∧ question_triggers_refusal "delete all inactive loans" = true
    ∧ question_triggers_refusal "change the totals" = false
    ∧ question_triggers_refusal "modify the report" = false := by
  refine ⟨?_, ?_, by decide, by decide, by decide⟩
  · intro htrig
    have hres : generate_sql question table_keys rc ca resp =
        { sql := none, confidence := 0, tables_used := [], intent_summary := [],
          clarification := some
            { needs_clarification := false, clarification_question := "",
              original_question := question,
              intent_data := [("refusal", "read_only_system")] } } := by
      unfold generate_sql
      rw [if_pos htrig]
    rw [hres]
    exact ⟨rfl, rfl, rfl⟩
  · intro htrig
    have hres : generate_sql question table_keys rc ca resp =
        (match deterministic_refinement question rc with
         | some r => r
         | none => clarification_or_llm question table_keys rc ca resp) := by
      unfold generate_sql
      rw [if_neg (by simp [htrig])]
    rw [hres]
    cases hdet : deterministic_refinement question rc with
    | some r =>
      have hcl := deterministic_refinement_clarification_none question rc r hdet
      constructor
      · intro c hc
        dsimp only at hc
        rw [hcl] at hc
        cases hc
      · intro msg
        unfold query_route_dispatch
        dsimp only
        rw [hcl]
        exact sql_dispatch_ne_refusal r.sql msg
    | none =>
      exact clarification_or_llm_no_refusal question table_keys rc ca resp

/-- C4 witness: the gate fires on `delete all inactive loans` (refusal
envelope, no SQL) and stays silent on `change the totals`. -/
theorem c4_refusal_gate_witness :
    ((generate_sql "delete all inactive loans" [] none none dummy_llm).sql = none
      ∧ query_route_dispatch (generate_sql "delete all inactive loans" [] none none dummy_llm)
          = RouteReply.refusalReply
              "This system is read-only. DELETE/UPDATE/INSERT/DDL operations are not allowed.")
    ∧ (∀ msg, query_route_dispatch (generate_sql "change the totals" [] none none dummy_llm)
        ≠ RouteReply.refusalReply msg) :=
  ⟨⟨((c4_refusal_gate "delete all inactive loans" [] none none dummy_llm).1 (by decide)).1,
    ((c4_refusal_gate "delete all inactive loans" [] none none dummy_llm).1 (by decide)).2.2⟩,
   ((c4_refusal_gate "change the totals" [] none none dummy_llm).2.1 (by decide)).2⟩

/-- Membership in the validator's `fk_lookup` (either orientation of the
resolved equality) is exactly `fkEdgeMatches`. -/
theorem qMatches_iff_fkEdgeMatches (edges : List FKEdge) (q : QualEq) :
    qMatches (fk_lookup edges) q = true ↔ fkEdgeMatches edges q := by
  unfold qMatches fk_lookup fkEdgeMatches
  simp only [Bool.or_eq_true, List.elem_iff, List.mem_flatMap,
    List.mem_cons, List.not_mem_nil, or_false, Prod.mk.injEq]
  constructor
  · rintro (⟨e, he, h⟩ | ⟨e, he, h⟩) <;>
      rcases h with ⟨h1, h2, h3, h4⟩ | ⟨h1, h2, h3, h4⟩
    · exact ⟨e, he, Or.inl ⟨h1.symm, h2.symm, h3.symm, h4.symm⟩⟩
    · exact ⟨e, he, Or.inr ⟨h3.symm, h4.symm, h1.symm, h2.symm⟩⟩
    · exact ⟨e, he, Or.inr ⟨h1.symm, h2.symm, h3.symm, h4.symm⟩⟩
    · exact ⟨e, he, Or.inl ⟨h3.symm, h4.symm, h1.symm, h2.symm⟩⟩
  · rintro ⟨e, he, ⟨h1, h2, h3, h4⟩ | ⟨h1, h2, h3, h4⟩⟩
    · exact Or.inl ⟨e, he, Or.inl ⟨h1.symm, h2.symm, h3.symm, h4.symm⟩⟩
    · exact Or.inl ⟨e, he, Or.inr ⟨h3.symm, h4.symm, h1.symm, h2.symm⟩⟩

/-- Acceptance by `validate_join_on_clauses` means every join contributed
no error. -/
theorem validate_join_on_accept
    (stmt : ParsedStmt) (edges : List FKEdge) (schemas : List String)
    (h : (validate_join_on_clauses stmt edges schemas).1 = true) :
    ∀ j ∈ stmt.joins,
      join_on_errors (build_alias_map stmt (default_schema schemas))
        stmt.cte_names (fk_lookup edges) j = [] := by
  unfold validate_join_on_clauses at h
  dsimp only at h
  rw [List.isEmpty_iff] at h
  intro j hj
  cases hne : join_on_errors (build_alias_map stmt (default_schema schemas))
      stmt.cte_names (fk_lookup edges) j with
  | nil => rfl
  | cons a rest =>
    exfalso
    have hmem : a ∈ stmt.joins.flatMap
        (join_on_errors (build_alias_map stmt (default_schema schemas))
          stmt.cte_names (fk_lookup edges)) :=
      List.mem_flatMap.mpr ⟨j, hj, by rw [hne]; exact List.mem_cons_self a rest⟩
    rw [h] at hmem
    cases hmem

/-- A join that contributes an error makes `validate_join_on_clauses`
reject. -/
theorem validate_join_on_reject
    (stmt : ParsedStmt) (edges : List FKEdge) (schemas : List String)
    (j : JoinClause) (hj : j ∈ stmt.joins)
    (hne : join_on_errors (build_alias_map stmt (default_schema schemas))
        stmt.cte_names (fk_lookup edges) j ≠ []) :
    (validate_join_on_clauses stmt edges schemas).1 = false := by
  unfold validate_join_on_clauses
  dsimp only
  cases hne2 : join_on_errors (build_alias_map stmt (default_schema schemas))
      stmt.cte_names (fk_lookup edges) j with
  | nil => exact absurd hne2 hne
  | cons a rest =>
    have hmem : a ∈ stmt.joins.flatMap
        (join_on_errors (build_alias_map stmt (default_schema schemas))
          stmt.cte_names (fk_lookup edges)) :=
      List.mem_flatMap.mpr ⟨j, hj, by rw [hne2]; exact List.mem_cons_self a rest⟩
    cases hfm : stmt.joins.flatMap
        (join_on_errors (build_alias_map stmt (default_schema schemas))
          stmt.cte_names (fk_lookup edges)) with
    | nil => rw [hfm] at hmem; cases hmem
    | cons b bs => rfl

/-- C2: for every JOIN in a statement the JOIN-ON validator accepts, a
plain qualified equality `a.x = b.y` whose resolved sides are not CTEs
matches a compiled FK edge in one of the two orientations; a compound AND
condition is accepted as soon as one of its qualified non-CTE equalities
matches an edge; a JOIN with no ON clause, or a plain equality with
unqualified columns, is rejected; and a plain equality with a CTE side is
exempt from the FK check. -/
theorem c2_join_on_fk_check
    (stmt : ParsedStmt) (edges : List FKEdge) (schemas : List String) :
    ((validate_join_on_clauses stmt edges schemas).1 = true →
      ∀ j ∈ stmt.joins, ∀ l rr, j.on_cond = some (OnCond.eqCond l rr) →
        ∀ lt lc rt rc, extract_table_column l = (some lt, some lc) →
          extract_table_column rr = (some rt, some rc) →
          qIsCte stmt.cte_names
            (resolveQ (build_alias_map stmt (default_schema schemas))
              ⟨lt, lc, rt, rc⟩) = false →
          fkEdgeMatches edges
            (resolveQ (build_alias_map stmt (default_schema schemas))
              ⟨lt, lc, rt, rc⟩))
    ∧ (∀ j ∈ stmt.joins, ∀ eqs, j.on_cond = some (OnCond.andCond eqs) →
        (∃ q ∈ (qualified_eqs eqs).map
            (resolveQ (build_alias_map stmt (default_schema schemas))),
          qIsCte stmt.cte_names q = false
            ∧ qMatches (fk_lookup edges) q = true) →
        join_on_errors (build_alias_map stmt (default_schema schemas))
          stmt.cte_names (fk_lookup edges) j = [])
    ∧ (∀ j ∈ stmt.joins, j.on_cond = none →
        (validate_join_on_clauses stmt edges schemas).1 = false)
    ∧ (∀ j ∈ stmt.joins, ∀ l rr, j.on_cond = some (OnCond.eqCond l rr) →
        ((extract_table_column l).1 = none ∨ (extract_table_column l).2 = none
          ∨ (extract_table_column rr).1 = none
          ∨ (extract_table_column rr).2 = none) →
        (validate_join_on_clauses stmt edges schemas).1 = false)
    ∧ (∀ j ∈ stmt.joins, ∀ l rr, j.on_cond = some (OnCond.eqCond l rr) →
        ∀ lt lc rt rc, extract_table_column l = (some lt, some lc) →
          extract_table_column rr = (some rt, some rc) →
          qIsCte stmt.cte_names
            (resolveQ (build_alias_map stmt (default_schema schemas))
              ⟨lt, lc, rt, rc⟩) = true →
          join_on_errors (build_alias_map stmt (default_schema schemas))
            stmt.cte_names (fk_lookup edges) j = []) := by
  refine ⟨?_, ?_, ?_, ?_, ?_⟩
  · intro hvalid j hj l rr hON lt lc rt rc hl hr hcte
    have hz := validate_join_on_accept stmt edges schemas hvalid j hj
    unfold join_on_errors at hz
    rw [hON] at hz
    dsimp only at hz
    rw [hl, hr] at hz
    dsimp only at hz
    rw [hcte] at hz
    simp only [Bool.false_eq_true, if_false] at hz
    by_cases hm : qMatches (fk_lookup edges)
        (resolveQ (build_alias_map stmt (default_schema schemas))
          ⟨lt, lc, rt, rc⟩) = true
    · exact (qMatches_iff_fkEdgeMatches edges _).mp hm
    · rw [if_neg (by simpa using hm)] at hz
      cases hz
  · intro j hj eqs hand hex
    unfold join_on_errors
    rw [hand]
    dsimp only
    obtain ⟨q, hq, hqc, hqm⟩ := hex
    have hfound : (((qualified_eqs eqs).map
        (resolveQ (build_alias_map stmt (default_schema schemas)))).any
        (fun q => !qIsCte stmt.cte_names q
          && qMatches (fk_lookup edges) q)) = true :=
      List.any_eq_true.mpr ⟨q, hq, by rw [hqc, hqm]; rfl⟩
    have hne : (((qualified_eqs eqs).map
        (resolveQ (build_alias_map stmt (default_schema schemas)))).isEmpty)
        = false := by
      cases hqs : (qualified_eqs eqs).map
          (resolveQ (build_alias_map stmt (default_schema schemas))) with
      | nil => rw [hqs] at hq; cases hq
      | cons x xs => rfl
    rw [hfound, hne]
    simp
  · intro j hj hON
    apply validate_join_on_reject stmt edges schemas j hj
    unfold join_on_errors
    rw [hON]
    simp
  · intro j hj l rr hON hmiss
    apply validate_join_on_reject stmt edges schemas j hj
    unfold join_on_errors
    rw [hON]
    dsimp only
    rcases hel : extract_table_column l with ⟨tl, cl⟩
    rcases her : extract_table_column rr with ⟨tr, cr⟩
    rw [hel, her] at hmiss
    dsimp only at hmiss
    cases tl <;> cases cl <;> cases tr <;> cases cr <;> simp_all
  · intro j hj l rr hON lt lc rt rc hl hr hcte
    unfold join_on_errors
    rw [hON]
    dsimp only
    rw [hl, hr]
    dsimp only
    rw [hcte]
    simp

/-- C2 witness: the accepted single-join statement `c2_stmt` over
`c2_edges` — acceptance holds and the theorem yields the FK match for its
equality. -/
theorem c2_join_on_fk_check_witness :
    fkEdgeMatches c2_edges
      (resolveQ (build_alias_map c2_stmt (default_schema ["core"]))
        ⟨"l", "borrower_id", "b", "id"⟩) :=
  (c2_join_on_fk_check c2_stmt c2_edges ["core"]).1 (by decide)
    c2_join (List.mem_cons_self c2_join []) _ _ rfl
    "l" "borrower_id" "b" "id" rfl rfl (by decide)

/-- A list with no LIMIT-number pair is left unchanged by the limit
rewrite scan. -/
theorem rewriteLimitScan_id (n : Nat) :
    ∀ l : List Token, hasLimitPair l = false → rewriteLimitScan n l = l
  | [], _ => rfl
  | Token.word s :: Token.num k :: rest, h => by
    simp only [hasLimitPair] at h
    by_cases hs : isLimitWord s = true
    · rw [if_pos hs] at h
      cases h
    · rw [if_neg hs] at h
      simp only [rewriteLimitScan, if_neg hs]
      rw [rewriteLimitScan_id n rest (by simpa [hasLimitPair] using h)]
  | Token.word s :: Token.word s2 :: rest, h => by
    simp only [hasLimitPair] at h
    simp only [rewriteLimitScan]
    rw [rewriteLimitScan_id n (Token.word s2 :: rest) h]
  | Token.word s :: Token.sym s2 :: rest, h => by
    simp only [hasLimitPair] at h
    simp only [rewriteLimitScan]
    rw [rewriteLimitScan_id n rest h]
  | [Token.word s], h => by
    simp only [rewriteLimitScan]
  | Token.num s :: rest, h => by
    simp only [hasLimitPair] at h
    simp only [rewriteLimitScan]
    rw [rewriteLimitScan_id n rest h]
  | Token.sym s :: rest, h => by
    simp only [hasLimitPair] at h
    simp only [rewriteLimitScan]
    rw [rewriteLimitScan_id n rest h]

/-- A list containing a LIMIT-number pair is seen by the pair search. -/
theorem hasLimitPair_append (s k : String) (post : List Token)
    (hs : isLimitWord s = true) :
    ∀ pre : List Token,
      hasLimitPair (pre ++ Token.word s :: Token.num k :: post) = true
  | [] => by simp only [List.nil_append, hasLimitPair, if_pos hs]
  | Token.word a :: Token.num b :: rest => by
    simp only [List.cons_append, hasLimitPair]
    by_cases ha : isLimitWord a = true
    · rw [if_pos ha]
    · rw [if_neg ha]
      exact hasLimitPair_append s k post hs (Token.num b :: rest)
  | Token.word a :: Token.word a2 :: rest => by
    simp only [List.cons_append, hasLimitPair]
    exact hasLimitPair_append s k post hs (Token.word a2 :: rest)
  | Token.word a :: Token.sym a2 :: rest => by
    simp only [List.cons_append, hasLimitPair]
    exact hasLimitPair_append s k post hs (Token.sym a2 :: rest)
  | [Token.word a] => by
    simp only [List.cons_append, List.nil_append, hasLimitPair, if_pos hs]
  | Token.num a :: rest => by
    simp only [List.cons_append, hasLimitPair]
    exact hasLimitPair_append s k post hs rest
  | Token.sym a :: rest => by
    simp only [List.cons_append, hasLimitPair]
    exact hasLimitPair_append s k post hs rest

/-- The limit rewrite scan over a decomposition with the only pair in the
middle: the prefix passes through unchanged and the pair is replaced. -/
theorem rewriteLimitScan_append (n : Nat) (s k : String)
    (post : List Token) (hs : isLimitWord s = true) :
    ∀ pre : List Token, hasLimitPair pre = false →
      rewriteLimitScan n (pre ++ Token.word s :: Token.num k :: post)
        = pre ++ Token.word "LIMIT" :: Token.num (toString n)
            :: rewriteLimitScan n post
  | [], _ => by
    simp only [List.nil_append, rewriteLimitScan, if_pos hs]
  | Token.word a :: Token.num b :: rest, h => by
    simp only [hasLimitPair] at h
    by_cases ha : isLimitWord a = true
    · rw [if_pos ha] at h
      cases h
    · rw [if_neg ha] at h
      simp only [List.cons_append, rewriteLimitScan, if_neg ha]
      have := rewriteLimitScan_append n s k post hs (Token.num b :: rest)
        (by simpa [hasLimitPair] using h)
      simpa [rewriteLimitScan] using this
  | Token.word a :: Token.word a2 :: rest, h => by
    simp only [hasLimitPair] at h
    simp only [List.cons_append, rewriteLimitScan]
    have := rewriteLimitScan_append n s k post hs (Token.word a2 :: rest) h
    simpa using this
  | Token.word a :: Token.sym a2 :: rest, h => by
    simp only [hasLimitPair] at h
    simp only [List.cons_append, rewriteLimitScan]
    have := rewriteLimitScan_append n s k post hs (Token.sym a2 :: rest)
      (by simpa [hasLimitPair] using h)
    simpa [rewriteLimitScan] using this
  | [Token.word a], h => by
    simp only [List.cons_append, List.nil_append, rewriteLimitScan, if_pos hs]
  | Token.num a :: rest, h => by
    simp only [hasLimitPair] at h
    simp only [List.cons_append, rewriteLimitScan]
    exact congrArg _ (rewriteLimitScan_append n s k post hs rest h)
  | Token.sym a :: rest, h => by
    simp only [hasLimitPair] at h
    simp only [List.cons_append, rewriteLimitScan]
    exact congrArg _ (rewriteLimitScan_append n s k post hs rest h)

/-- The limit rewrite on an anchor containing exactly one `LIMIT <k>`
occurrence touches only that clause: every other token is returned
byte-identically. -/
theorem rewrite_limit_single_occurrence (n : Nat) (s k : String)
    (pre post : List Token) (hs : isLimitWord s = true)
    (hpre : hasLimitPair pre = false) (hpost : hasLimitPair post = false) :
    rewrite_limit (pre ++ Token.word s :: Token.num k :: post) n
      = pre ++ Token.word "LIMIT" :: Token.num (toString n) :: post := by
  unfold rewrite_limit
  rw [if_neg (by simp)]
  rw [if_pos (hasLimitPair_append s k post hs pre)]
  rw [rewriteLimitScan_append n s k post hs pre hpre]
  rw [rewriteLimitScan_id n post hpost]

/-- A list with no ORDER BY pattern is left unchanged by the order
rewrite scan. -/
theorem rewriteOrderScan_id (col dir : String) :
    ∀ l : List Token, hasOrderPattern l = false →
      rewriteOrderScan col dir l = l
  | [], _ => rfl
  | [t1], _ => rfl
  | [t1, t2], _ => rfl
  | [t1, t2, t3], _ => rfl
  | t1 :: t2 :: t3 :: t4 :: rest, h => by
    simp only [hasOrderPattern] at h
    by_cases hp : isOrderPattern t1 t2 t3 t4 = true
    · rw [if_pos hp] at h
      cases h
    · rw [if_neg hp] at h
      simp only [rewriteOrderScan, if_neg hp]
      rw [rewriteOrderScan_id col dir (t2 :: t3 :: t4 :: rest) h]

/-- A list containing an ORDER BY pattern is seen by the pattern
search. -/
theorem hasOrderPattern_append (o b : String) (ct dt : Token)
    (post : List Token)
    (ho : upper o = "ORDER") (hb : upper b = "BY")
    (hct : isColToken ct = true) (hdt : isDirToken dt = true) :
    ∀ pre : List Token,
      hasOrderPattern
        (pre ++ Token.word o :: Token.word b :: ct :: dt :: post) = true
  | [] => by
    simp only [List.nil_append, hasOrderPattern]
    rw [if_pos (by simp [isOrderPattern, ho, hb, hct, hdt])]
  | [t1] => by
    simp only [List.cons_append, List.nil_append, hasOrderPattern]
    by_cases hp : isOrderPattern t1 (Token.word o) (Token.word b) ct = true
    · rw [if_pos hp]
    · rw [if_neg hp]
      rw [if_pos (by simp [isOrderPattern, ho, hb, hct, hdt])]
  | [t1, t2] => by
    simp only [List.cons_append, List.nil_append, hasOrderPattern]
    by_cases hp : isOrderPattern t1 t2 (Token.word o) (Token.word b) = true
    · rw [if_pos hp]
    · rw [if_neg hp]
      exact hasOrderPattern_append o b ct dt post ho hb hct hdt [t2]
  | [t1, t2, t3] => by
    simp only [List.cons_append, List.nil_append, hasOrderPattern]
    by_cases hp : isOrderPattern t1 t2 t3 (Token.word o) = true
    · rw [if_pos hp]
    · rw [if_neg hp]
      exact hasOrderPattern_append o b ct dt post ho hb hct hdt [t2, t3]
  | t1 :: t2 :: t3 :: t4 :: rest => by
    simp only [List.cons_append, hasOrderPattern]
    by_cases hp : isOrderPattern t1 t2 t3 t4 = true
    · rw [if_pos hp]
    · rw [if_neg hp]
      exact hasOrderPattern_append o b ct dt post ho hb hct hdt
        (t2 :: t3 :: t4 :: rest)

/-- The order rewrite scan over a decomposition with the only ORDER BY
pattern in the middle: the prefix passes through unchanged (windows
straddling the boundary cannot match, since the second window position
would need the `BY` word and the fourth a direction word) and the pattern
is replaced by the new clause. -/
theorem rewriteOrderScan_append (col dir o b : String) (ct dt : Token)
    (post : List Token)
    (ho : upper o = "ORDER") (hb : upper b = "BY")
    (hct : isColToken ct = true) (hdt : isDirToken dt = true) :
    ∀ pre : List Token, hasOrderPattern pre = false →
      rewriteOrderScan col dir
        (pre ++ Token.word o :: Token.word b :: ct :: dt :: post)
        = pre ++ Token.word "ORDER" :: Token.word "BY" :: Token.word col
            :: Token.word dir :: rewriteOrderScan col dir post
  | [], _ => by
    simp only [List.nil_append, rewriteOrderScan]
    rw [if_pos (by simp [isOrderPattern, ho, hb, hct, hdt])]
  | [t1], _ => by
    simp only [List.cons_append, List.nil_append, rewriteOrderScan]
    rw [if_neg (by simp [isOrderPattern, ho])]
    rw [if_pos (by simp [isOrderPattern, ho, hb, hct, hdt])]
  | [t1, t2], _ => by
    simp only [List.cons_append, List.nil_append, rewriteOrderScan]
    rw [if_neg (by simp [isOrderPattern, isDirToken, hb])]
    rw [if_neg (by simp [isOrderPattern, ho])]
    rw [if_pos (by simp [isOrderPattern, ho, hb, hct, hdt])]
  | [t1, t2, t3], _ => by
    simp only [List.cons_append, List.nil_append, rewriteOrderScan]
    rw [if_neg (by simp [isOrderPattern, isDirToken, ho])]
    rw [if_neg (by simp [isOrderPattern, isDirToken, hb])]
    rw [if_neg (by simp [isOrderPattern, ho])]
    rw [if_pos (by simp [isOrderPattern, ho, hb, hct, hdt])]
  | t1 :: t2 :: t3 :: t4 :: rest, h => by
    simp only [hasOrderPattern] at h
    by_cases hp : isOrderPattern t1 t2 t3 t4 = true
    · rw [if_pos hp] at h
      cases h
    · rw [if_neg hp] at h
      rw [show (t1 :: t2 :: t3 :: t4 :: rest)
            ++ Token.word o :: Token.word b :: ct :: dt :: post
          = t1 :: t2 :: t3 :: t4 :: (rest
            ++ Token.word o :: Token.word b :: ct :: dt :: post) from rfl]
      rw [rewriteOrderScan]
      rw [if_neg (by simp [hp])]
      rw [show t2 :: t3 :: t4 :: (rest
            ++ Token.word o :: Token.word b :: ct :: dt :: post)
          = (t2 :: t3 :: t4 :: rest)
            ++ Token.word o :: Token.word b :: ct :: dt :: post from rfl]
      rw [rewriteOrderScan_append col dir o b ct dt post ho hb hct hdt
        (t2 :: t3 :: t4 :: rest) h]
      rfl

/-- The order rewrite on an anchor containing exactly one
`ORDER BY <col> <dir>` occurrence touches only that clause. -/
theorem rewrite_order_single_occurrence (col dir o b : String)
    (ct dt : Token) (pre post : List Token)
    (ho : upper o = "ORDER") (hb : upper b = "BY")
    (hct : isColToken ct = true) (hdt : isDirToken dt = true)
    (hpre : hasOrderPattern pre = false)
    (hpost : hasOrderPattern post = false) :
    rewrite_order (pre ++ Token.word o :: Token.word b :: ct :: dt :: post)
        col dir
      = pre ++ Token.word "ORDER" :: Token.word "BY" :: Token.word col
          :: Token.word dir :: post := by
  unfold rewrite_order
  rw [if_neg (by simp)]
  dsimp only
  rw [if_pos (hasOrderPattern_append o b ct dt post ho hb hct hdt pre)]
  rw [rewriteOrderScan_append col dir o b ct dt post ho hb hct hdt pre hpre]
  rw [rewriteOrderScan_id col dir post hpost]

/-- The deterministic limit-change path of `generate_sql`: with a related
context, an anchor SQL, the `limit_change` instruction and a parsed
non-zero number, the result is the limit rewrite of the anchor at
confidence 0.99. -/
theorem deterministic_limit_path
    (q : String) (tk : List String) (ca : Option String)
    (resp : LLMResponse) (rc : ResolvedContext) (anchor : Turn)
    (prev : List Token) (n : Nat)
    (hrel : rc.is_related = true) (hanch : rc.anchor_turn = some anchor)
    (hsql : anchor.sql = some prev) (hne : prev ≠ [])
    (hinstr : rc.refinement_instruction = some "limit_change")
    (hparse : parse_limit_value q = some n) (hn : n ≠ 0)
    (htrig : question_triggers_refusal q = false) :
    (generate_sql q tk (some rc) ca resp).sql = some (rewrite_limit prev n)
    ∧ (generate_sql q tk (some rc) ca resp).confidence = 99 / 100 := by
  have hdet : deterministic_refinement q (some rc) = some
      { sql := some (rewrite_limit prev n), confidence := 99 / 100,
        tables_used := rc.preserved_dimensions.tables.getD [],
        intent_summary := dictSet anchor.intent_summary "limit" (toString n),
        clarification := none } := by
    unfold deterministic_refinement
    dsimp only
    rw [if_neg (by simp [hrel])]
    rw [hanch]
    dsimp only
    rw [hsql]
    dsimp only
    rw [if_neg (by simpa [List.isEmpty_iff] using hne)]
    rw [if_pos hinstr]
    rw [hparse]
    dsimp only
    rw [if_pos hn]
  unfold generate_sql
  rw [if_neg (by simp [htrig]), hdet]
  exact ⟨rfl, rfl⟩

/-- The deterministic order-change path of `generate_sql`: with a related
context, an anchor SQL, the `order_change` instruction and a parsed sort
clause, the result is the order rewrite of the anchor at confidence
0.99. -/
theorem deterministic_order_path
    (q : String) (tk : List String) (ca : Option String)
    (resp : LLMResponse) (rc : ResolvedContext) (anchor : Turn)
    (prev : List Token) (col dir : String)
    (hrel : rc.is_related = true) (hanch : rc.anchor_turn = some anchor)
    (hsql : anchor.sql = some prev) (hne : prev ≠ [])
    (hinstr : rc.refinement_instruction = some "order_change")
    (hparse : parse_order_clause q = some (col, dir))
    (htrig : question_triggers_refusal q = false) :
    (generate_sql q tk (some rc) ca resp).sql
        = some (rewrite_order prev col dir)
    ∧ (generate_sql q tk (some rc) ca resp).confidence = 99 / 100 := by
  have hdet : deterministic_refinement q (some rc) = some
      { sql := some (rewrite_order prev col dir), confidence := 99 / 100,
        tables_used := rc.preserved_dimensions.tables.getD [],
        intent_summary := dictSet anchor.intent_summary "ordering"
          (col ++ " " ++ dir),
        clarification := none } := by
    unfold deterministic_refinement
    dsimp only
    rw [if_neg (by simp [hrel])]
    rw [hanch]
    dsimp only
    rw [hsql]
    dsimp only
    rw [if_neg (by simpa [List.isEmpty_iff] using hne)]
    rw [if_neg (by simp [hinstr])]
    rw [if_pos hinstr]
    rw [hparse]
  unfold generate_sql
  rw [if_neg (by simp [htrig]), hdet]
  exact ⟨rfl, rfl⟩

/-- C5 counterexample: the anchor `c5_anchor` has TWO LIMIT clauses (one
in a sub-select); the successful deterministic limit rewrite of
`make it 5` changes BOTH of them, so the returned SQL differs from the
anchor at two token positions — not only in the (single) targeted
clause. -/
theorem c5_counterexample :
    (generate_sql "make it 5" [] (some c5_rc) none dummy_llm).sql
      = some (rewrite_limit c5_anchor 5)
    ∧ rewrite_limit c5_anchor 5
      = [Token.word "SELECT", Token.sym "*", Token.word "FROM", Token.sym "(",
         Token.word "SELECT", Token.sym "*", Token.word "FROM",
         Token.word "core.loans", Token.word "LIMIT", Token.num "5",
         Token.sym ")", Token.word "s",
         Token.word "LIMIT", Token.num "5"]
    ∧ tokenDiffCount c5_anchor (rewrite_limit c5_anchor 5) = 2 := by
  refine ⟨by decide, by decide, by decide⟩

/-- C5 (amended): every successful deterministic-refinement rewrite is
reported with confidence 0.99 and rewrites only clauses of the targeted
kind — but it rewrites EVERY occurrence of the pattern, so the returned
SQL is byte-identical to the anchor outside the targeted clause exactly
when the anchor contains a single occurrence of that pattern (a single
`LIMIT <n>` for limit_change, a single `ORDER BY <col> <dir>` for
order_change). -/
theorem c5_deterministic_rewrite_confidence_and_locality :
    (∀ (q : String) (tk : List String) (ca : Option String)
        (resp : LLMResponse) (rc : ResolvedContext) (anchor : Turn)
        (prev : List Token) (n : Nat),
      rc.is_related = true → rc.anchor_turn = some anchor →
      anchor.sql = some prev → prev ≠ [] →
      rc.refinement_instruction = some "limit_change" →
      parse_limit_value q = some n → n ≠ 0 →
      question_triggers_refusal q = false →
      (generate_sql q tk (some rc) ca resp).sql = some (rewrite_limit prev n)
      ∧ (generate_sql q tk (some rc) ca resp).confidence = 99 / 100)
    ∧ (∀ (q : String) (tk : List String) (ca : Option String)
        (resp : LLMResponse) (rc : ResolvedContext) (anchor : Turn)
        (prev : List Token) (col dir : String),
      rc.is_related = true → rc.anchor_turn = some anchor →
      anchor.sql = some prev → prev ≠ [] →
      rc.refinement_instruction = some "order_change" →
      parse_order_clause q = some (col, dir) →
      question_triggers_refusal q = false →
      (generate_sql q tk (some rc) ca resp).sql
          = some (rewrite_order prev col dir)
      ∧ (generate_sql q tk (some rc) ca resp).confidence = 99 / 100)
    ∧ (∀ (n : Nat) (s k : String) (pre post : List Token),
      isLimitWord s = true → hasLimitPair pre = false →
      hasLimitPair post = false →
      rewrite_limit (pre ++ Token.word s :: Token.num k :: post) n
        = pre ++ Token.word "LIMIT" :: Token.num (toString n) :: post)
    ∧ (∀ (col dir o b : String) (ct dt : Token) (pre post : List Token),
      upper o = "ORDER" → upper b = "BY" →
      isColToken ct = true → isDirToken dt = true →
      hasOrderPattern pre = false → hasOrderPattern post = false →
      rewrite_order (pre ++ Token.word o :: Token.word b :: ct :: dt :: post)
          col dir
        = pre ++ Token.word "ORDER" :: Token.word "BY" :: Token.word col
            :: Token.word dir :: post) := by
  refine ⟨?_, ?_, ?_, ?_⟩
  · intro q tk ca resp rc anchor prev n h1 h2 h3 h4 h5 h6 h7 h8
    exact deterministic_limit_path q tk ca resp rc anchor prev n
      h1 h2 h3 h4 h5 h6 h7 h8
  · intro q tk ca resp rc anchor prev col dir h1 h2 h3 h4 h5 h6 h7
    exact deterministic_order_path q tk ca resp rc anchor prev col dir
      h1 h2 h3 h4 h5 h6 h7
  · intro n s k pre post h1 h2 h3
    exact rewrite_limit_single_occurrence n s k pre post h1 h2 h3
  · intro col dir o b ct dt pre post h1 h2 h3 h4 h5 h6
    exact rewrite_order_single_occurrence col dir o b ct dt pre post
      h1 h2 h3 h4 h5 h6

/-- C5 witness: the amended statement instantiated on the single-LIMIT
anchor `c5_anchor1` and on a concrete single-occurrence decomposition. -/
theorem c5_deterministic_rewrite_witness :
    ((generate_sql "make it 5" [] (some c5_rc1) none dummy_llm).sql
        = some (rewrite_limit c5_anchor1 5)
      ∧ (generate_sql "make it 5" [] (some c5_rc1) none dummy_llm).confidence
        = 99 / 100)
    ∧ rewrite_limit ([Token.word "SELECT", Token.word "x", Token.word "FROM",
          Token.word "core.loans"]
        ++ Token.word "LIMIT" :: Token.num "2"
          :: [Token.sym ";"]) 5
      = [Token.word "SELECT", Token.word "x", Token.word "FROM",
          Token.word "core.loans"]
        ++ Token.word "LIMIT" :: Token.num "5" :: [Token.sym ";"] :=
  ⟨c5_deterministic_rewrite_confidence_and_locality.1
      "make it 5" [] none dummy_llm c5_rc1
      { question := "show top 2 loans", sql := some c5_anchor1,
        intent_summary := [("limit", "2")] }
      c5_anchor1 5 rfl rfl rfl (by decide) rfl (by decide) (by decide)
      (by decide),
   c5_deterministic_rewrite_confidence_and_locality.2.2.1
      5 "LIMIT" "2"
      [Token.word "SELECT", Token.word "x", Token.word "FROM",
        Token.word "core.loans"] [Token.sym ";"]
      (by decide) (by decide) (by decide)⟩

end RetrievalAgent
